import Mathlib

set_option maxRecDepth 100000
set_option maxHeartbeats 1000000

/-!
Verification of the query-routing and context-assembly pipeline of the
City of Kingston 311 chatbot backend (`backend/main.py`).

Strings are modelled as `List Char` (`Str`).  The Python regular-expression
operations used by the backend are embedded as explicit scanners with the
same semantics (leftmost scanning, non-overlapping replacement, greedy and
lazy quantifier behavior as relevant for each concrete pattern).  Scanners
carry a `Nat` skip counter so that every definition is structurally
recursive and therefore computable by the kernel.

External services (OpenAI completions, the Pinecone index, HTTP fetches,
HTML text extraction) are modelled as oracle parameters: the embedded
functions receive the outcome of each external call as an argument, so
every theorem quantifies over all possible behaviors of those services.
-/

abbrev Str := List Char

/-- ASCII lowering, matching `str.lower()` on the ASCII inputs used here. -/
def lowerStr (s : Str) : Str := s.map Char.toLower

/-- Python whitespace class (`\s` and `str.strip`/`str.split` whitespace),
restricted to its ASCII members. -/
def isSpaceCh (c : Char) : Bool :=
  c = ' ' || c = '\t' || c = '\n' || c = '\r' || c = '\x0b' || c = '\x0c'

/-- Python `\w` word-character class, restricted to ASCII. -/
def isWordCh (c : Char) : Bool := c.isAlphanum || c = '_'

/-- Python `\d` digit class, restricted to ASCII. -/
def isDigitCh (c : Char) : Bool := c.isDigit

/-- Model of `str.strip()`: drop whitespace from both ends. -/
def pyStrip (s : Str) : Str :=
  ((s.dropWhile isSpaceCh).reverse.dropWhile isSpaceCh).reverse

/-- Strip a single given character from both ends, as `str.strip("_")` does. -/
def stripChar (t : Char) (s : Str) : Str :=
  ((s.dropWhile (· = t)).reverse.dropWhile (· = t)).reverse

/-- Python substring test `pat in s`. -/
def containsSub (pat s : Str) : Bool :=
  s.tails.any (fun t => pat.isPrefixOf t)

/-- Case-insensitive literal prefix test (both sides are lowered, which
matches `re.IGNORECASE` literal matching for ASCII). -/
def ciPrefixOf : Str → Str → Bool
  | [], _ => true
  | _ :: _, [] => false
  | k :: ks, c :: cs => (Char.toLower c = Char.toLower k) && ciPrefixOf ks cs

/-- Scanner for `re.sub(r"\bLIT\b", " ", text, flags=re.IGNORECASE)` where
`LIT` begins and ends with a word character (true of every literal the
backend uses), so each `\b` just requires the neighbouring character to be
a non-word character (or the string edge).  The `Nat` argument counts
characters of a previous match still to be skipped; `prev` is the previous
scanned character (for the left boundary). -/
def substKwAux (k0 : Char) (ks : Str) : Nat → Option Char → Str → Str
  | _, _, [] => []
  | n + 1, prev, _ :: cs => substKwAux k0 ks n prev cs
  | 0, prev, c :: cs =>
    if ciPrefixOf (k0 :: ks) (c :: cs)
        && (match prev with | none => true | some p => !isWordCh p)
        && (match cs.drop ks.length with | [] => true | a :: _ => !isWordCh a) then
      ' ' :: substKwAux k0 ks ks.length (some ' ') cs
    else
      c :: substKwAux k0 ks 0 (some c) cs

def substKw (kw : Str) (s : Str) : Str :=
  match kw with
  | [] => s
  | k :: ks => substKwAux k ks 0 none s

/-- Index of the first case-insensitive occurrence of `pat`. -/
def findCI (pat : Str) : Str → Option Nat
  | [] => if ciPrefixOf pat [] then some 0 else none
  | c :: cs =>
    if ciPrefixOf pat (c :: cs) then some 0
    else (findCI pat cs).map (· + 1)

/-- Resolve a chain of lazy `.*?LANDMARK` segments: for each landmark take its
earliest occurrence, returning the total number of characters consumed up to
and including the last landmark. -/
def chainLandmarks : List Str → Str → Option Nat
  | [], _ => some 0
  | lm :: lms, t =>
    match findCI lm t with
    | none => none
    | some i =>
      match chainLandmarks lms (t.drop (i + lm.length)) with
      | none => none
      | some j => some (i + lm.length + j)

/-- Number of characters a lazy `.*?` (DOTALL) consumes before the lookahead
`(?=\n\n|\Z)` first holds: the earliest position where `"\n\n"` starts, or
the end of the string. -/
def blankOrEndFrom : Str → Nat
  | [] => 0
  | c :: cs =>
    if c = '\n' && (match cs with | '\n' :: _ => true | _ => false) then 0
    else 1 + blankOrEndFrom cs

/-- Scanner for `re.sub` of a pattern of the shape
`PRE(.*?L1)(.*?L2)....*?(?=\n\n|\Z)` with `re.DOTALL | re.IGNORECASE`
(the boilerplate-paragraph removals of the backend): at the leftmost
position where the literal `PRE` matches and every landmark occurs after
it, the match extends lazily through the landmarks and then to the first
blank line or the end; the match is replaced by `rep` and scanning resumes
after it. -/
def substSpanAux (rep : Str) (p0 : Char) (ps : Str) (lms : List Str) :
    Nat → Str → Str
  | _, [] => []
  | n + 1, _ :: cs => substSpanAux rep p0 ps lms n cs
  | 0, c :: cs =>
    if ciPrefixOf (p0 :: ps) (c :: cs) then
      match chainLandmarks lms (cs.drop ps.length) with
      | none => c :: substSpanAux rep p0 ps lms 0 cs
      | some off =>
        let e := blankOrEndFrom ((cs.drop ps.length).drop off)
        rep ++ substSpanAux rep p0 ps lms (ps.length + off + e) cs
    else c :: substSpanAux rep p0 ps lms 0 cs

def substSpan (rep pre : Str) (lms : List Str) (s : Str) : Str :=
  match pre with
  | [] => s
  | p :: ps => substSpanAux rep p ps lms 0 s

/-- Scanner for `re.sub(r"[ \t]+", " ", text)`.  The Bool records whether the
previous character was part of a space/tab run already replaced. -/
def collapseSTAux : Bool → Str → Str
  | _, [] => []
  | inRun, c :: cs =>
    if c = ' ' || c = '\t' then
      if inRun then collapseSTAux true cs else ' ' :: collapseSTAux true cs
    else c :: collapseSTAux false cs

def collapseST (s : Str) : Str := collapseSTAux false s

/-- Scanner for `re.sub(r"\n{3,}", "\n\n", text)`: a run of three or more
newlines is replaced by exactly two; shorter runs are kept. -/
def collapseNlAux : Nat → Str → Str
  | _, [] => []
  | n + 1, _ :: cs => collapseNlAux n cs
  | 0, c :: cs =>
    if c = '\n' && 2 ≤ (cs.takeWhile (· = '\n')).length then
      '\n' :: '\n' :: collapseNlAux (cs.takeWhile (· = '\n')).length cs
    else c :: collapseNlAux 0 cs

def collapseNl (s : Str) : Str := collapseNlAux 0 s

/-- Character class `[a-z0-9]` of `_normalize_category`'s substitution. -/
def isLowerAlnum (c : Char) : Bool :=
  ('a' ≤ c && c ≤ 'z') || ('0' ≤ c && c ≤ '9')

/-- Scanner for `re.sub(r"[^a-z0-9]+", "_", s)`. -/
def collapseNonAlnumAux : Bool → Str → Str
  | _, [] => []
  | inRun, c :: cs =>
    if isLowerAlnum c then c :: collapseNonAlnumAux false cs
    else if inRun then collapseNonAlnumAux true cs
    else '_' :: collapseNonAlnumAux true cs

/-- Model of `_normalize_category` from `backend/main.py`. -/
def normalize_category (value : Str) : Str :=
  if value = [] then []
  else stripChar '_' (collapseNonAlnumAux false (lowerStr (pyStrip value)))

/-- Model of `_clean_retrieved_content` from `backend/main.py`: remove boilerplate
labels and cheque/mailing-address paragraphs, collapse horizontal
whitespace, collapse newline runs, strip. -/
def clean_retrieved_content (raw : Str) : Str :=
  if raw = [] then []
  else
    let t1 := substKw ("Section Menu".data) raw
    let t2 := substKw ("Contact Us".data) t1
    let t3 := substKw ("City of Kingston".data) t2
    let t4 := substKw ("City Hall".data) t3
    let t5 := substSpan (" ".data)
      ("Make your cheque payable to City of Kingston and mail it to".data) [] t4
    let t6 := substSpan (" ".data) ("Make your cheque payable".data)
      [("PO Box 640".data)] t5
    pyStrip (collapseNl (collapseST t6))

/-! ## Context assembly (`_select_context_and_results`) -/

/-- A Pinecone match after the `to_item` conversion at the top of
`_select_context_and_results` (score plus the four metadata fields, with
missing fields already defaulted to the empty string).  Scores are modelled
as integers; the selection logic only compares them. -/
structure RagItem where
  score : Int
  raw_content : Str
  category : Str
  topic : Str
  source_url : Str
deriving DecidableEq, Repr

/-- An entry of the `formatted_results` list built for the UI. -/
structure RagResult where
  score : Int
  content : Str
  category : Str
  topic : Str
  source_url : Str
deriving DecidableEq, Repr

/-- The formatted record the accept branch of `build_from` constructs. -/
def mkRagResult (item : RagItem) : RagResult :=
  { score := item.score
    content := (clean_retrieved_content item.raw_content).take 500
    category := item.category
    topic := item.topic
    source_url := item.source_url }

/-- The context block the accept branch of `build_from` constructs. -/
def mkContextBlock (item : RagItem) : Str :=
  (clean_retrieved_content item.raw_content).take 2000

/-- Model of `seen_urls.add(url)` guarded by `if url:`. -/
def updateSeen (seen : List Str) (url : Str) : List Str :=
  if url ≠ [] then url :: seen else seen

/-- The loop body of `build_from`: walk the candidates, skip items whose
non-empty `source_url` was already accepted, skip items whose cleaned
content is shorter than 200 characters, and stop once `top_k` items have
been accepted (`cnt` counts the items accepted so far, `seen` holds the
accepted non-empty urls). -/
def buildFromAux (top_k : Nat) : Nat → List Str → List RagItem →
    List RagResult × List Str
  | _, _, [] => ([], [])
  | cnt, seen, item :: rest =>
    if item.source_url ≠ [] ∧ item.source_url ∈ seen then
      buildFromAux top_k cnt seen rest
    else if (clean_retrieved_content item.raw_content).length < 200 then
      buildFromAux top_k cnt seen rest
    else
      if cnt + 1 ≥ top_k then ([mkRagResult item], [mkContextBlock item])
      else
        let p := buildFromAux top_k (cnt + 1) (updateSeen seen item.source_url) rest
        (mkRagResult item :: p.1, mkContextBlock item :: p.2)

/-- Model of `build_from` of `_select_context_and_results`: only the first
`max(top_k * 6, 20)` candidates are considered. -/
def buildFrom (top_k : Nat) (candidates : List RagItem) :
    List RagResult × List Str :=
  buildFromAux top_k 0 [] (candidates.take (max (top_k * 6) 20))

/-- Stable insertion of `a` into `l`: `a` is placed before the first
element `b` with `le a b` (so before equal elements that were later in the
original list, and after equal elements that were earlier). -/
def stableInsert {α : Type} (le : α → α → Bool) (a : α) : List α → List α
  | [] => [a]
  | b :: bs => if le a b then a :: b :: bs else b :: stableInsert le a bs

/-- A stable sort (insertion sort).  A stable sort of a list by a total
preorder is unique as a function, so this is extensionally the same
operation as Python's stable `list.sort`. -/
def stableSort {α : Type} (le : α → α → Bool) : List α → List α
  | [] => []
  | a :: as => stableInsert le a (stableSort le as)

/-- Python's stable descending sort `items.sort(key=lambda x: -score)`. -/
def sortByScore (items : List RagItem) : List RagItem :=
  stableSort (fun a b => decide (b.score ≤ a.score)) items

/-- The category restriction of `_select_context_and_results`: when a
non-empty normalized category is expected, keep only the items whose
normalized category equals it. -/
def categoryFiltered (items : List RagItem) (expected_norm : Str) :
    List RagItem :=
  if expected_norm ≠ [] then
    items.filter (fun it => normalize_category it.category = expected_norm)
  else items

/-- Model of `_select_context_and_results` from `backend/main.py`: sort by score,
restrict to the expected (normalized) category when one is given, build
results and context, and fall back to the unfiltered list when the
filtered pass yields no context. -/
def select_context_and_results (ms : List RagItem)
    (expected_category : Str) (top_k : Nat) : List RagResult × List Str :=
  let expected_norm := normalize_category expected_category
  let items := sortByScore ms
  let filtered := categoryFiltered items expected_norm
  let p := buildFrom top_k filtered
  if p.2 = [] then buildFrom top_k items else p

/-! ## Fallback intent classification (`classify_question_intent_fallback`) -/

/-- The `live_keywords` list of `classify_question_intent_fallback`. -/
def liveKeywords : List Str :=
  [("when is my".data), ("when does my".data), ("what day is my".data),
   ("my collection day".data), ("my pickup day".data),
   ("check my collection".data), ("find my collection".data)]

/-- The road-type suffix alternation of the address pattern
`\d+\s+\w+\s+(street|st|avenue|ave|road|rd|drive|dr|lane|ln|boulevard|blvd|way|court|ct)`,
in the order the alternatives appear in the pattern. -/
def roadSuffixes : List Str :=
  [("street".data), ("st".data), ("avenue".data), ("ave".data), ("road".data),
   ("rd".data), ("drive".data), ("dr".data), ("lane".data), ("ln".data),
   ("boulevard".data), ("blvd".data), ("way".data), ("court".data), ("ct".data)]

/-- Match of the address pattern `\d+\s+\w+\s+(street|st|...)` anchored at the
start of `s`.  The character classes of consecutive greedy pieces are
disjoint (`\d`/`\s`, `\w`/`\s`) and every alternative starts with a letter,
so the greedy runs are exactly the maximal runs and no backtracking can
succeed where this fails. -/
def addrMatchAt (s : Str) : Bool :=
  let p1 := s.span isDigitCh
  if p1.1 = [] then false
  else
    let p2 := p1.2.span isSpaceCh
    if p2.1 = [] then false
    else
      let p3 := p2.2.span isWordCh
      if p3.1 = [] then false
      else
        let p4 := p3.2.span isSpaceCh
        if p4.1 = [] then false
        else roadSuffixes.any (fun suf => suf.isPrefixOf p4.2)

/-- Model of `re.search` of the address pattern: some starting position matches. -/
def searchAddr (s : Str) : Bool := s.tails.any addrMatchAt

/-- Model of `has_collection_keyword` of `classify_question_intent_fallback`. -/
def hasCollectionKeyword (q : Str) : Bool :=
  liveKeywords.any (fun k => containsSub k q)
    || (containsSub ("collection".data) q && containsSub ("day".data) q)

def parkingTerms : List Str :=
  [("parking permit".data), ("parking".data), ("permit".data),
   ("monthly parking".data), ("residential parking".data)]

def propertyTaxTerms : List Str :=
  [("property tax".data), ("tax payment".data), ("tax due".data),
   ("tax bill".data), ("pay taxes".data)]

def wasteTerms : List Str :=
  [("blue box".data), ("grey box".data), ("green bin".data), ("what goes".data),
   ("recycling".data), ("garbage".data), ("waste".data), ("cart".data),
   ("collection rules".data)]

def hazardousTerms : List Str :=
  [("hazardous waste".data), ("karc".data), ("dispose".data),
   ("batteries".data), ("drop off".data)]

def fireTerms : List Str :=
  [("fire permit".data), ("open air fire".data), ("burn".data),
   ("fire pit".data)]

def noiseTerms : List Str :=
  [("noise".data), ("quiet hours".data), ("bylaw".data), ("nuisance".data),
   ("complaint".data)]

/-- Model of `classify_question_intent_fallback` from `backend/main.py`. -/
def classify_question_intent_fallback (query : Str) : Str × Str :=
  let q := lowerStr query
  let has_address := searchAddr q
  let has_collection_keyword := hasCollectionKeyword q
  if has_address && has_collection_keyword then
    (("live_status_lookup".data), ("waste_collection".data))
  else if parkingTerms.any (fun t => containsSub t q) then
    (("policy_explanatory".data), ("parking".data))
  else if propertyTaxTerms.any (fun t => containsSub t q) then
    (("policy_explanatory".data), ("property_tax".data))
  else if wasteTerms.any (fun t => containsSub t q) then
    (("policy_explanatory".data), ("waste_collection".data))
  else if hazardousTerms.any (fun t => containsSub t q) then
    (("policy_explanatory".data), ("hazardous_waste".data))
  else if fireTerms.any (fun t => containsSub t q) then
    (("policy_explanatory".data), ("fire_permits".data))
  else if noiseTerms.any (fun t => containsSub t q) then
    (("policy_explanatory".data), ("noise".data))
  else (("policy_explanatory".data), ("waste_collection".data))

/-! ## Dynamic-route selection (`classify_dynamic_bucket`) -/

def timeHintTerms : List Str :=
  [("today".data), ("tomorrow".data), ("now".data), ("right now".data),
   ("current".data), ("latest".data), ("updated".data)]

def roadTerms : List Str :=
  [("road closure".data), ("road closures".data), ("road closed".data),
   ("lane closed".data), ("closure".data), ("traffic".data), ("detour".data),
   ("construction".data), ("road work".data), ("roadwork".data),
   ("blocked".data), ("road blocked".data), ("blockage".data)]

def constructionTypos : List Str :=
  [("contruc".data), ("constuc".data), ("construc".data)]

def snowTerms : List Str :=
  [("snow".data), ("snow removal".data), ("plow".data), ("plowing".data),
   ("winter maintenance".data), ("winter".data)]

def lostPhrases : List Str :=
  [("lost and found".data), ("lost my".data), ("lost wallet".data),
   ("lost phone".data), ("lost item".data)]

def transitCoreTerms : List Str :=
  [("transit".data), ("bus".data), ("kingston transit".data)]

def transitTerms : List Str :=
  [("transit".data), ("bus".data), ("kingston transit".data), ("route".data),
   ("detour".data), ("delay".data), ("delayed".data), ("cancelled".data),
   ("canceled".data)]

/-- The first rule of `classify_dynamic_bucket`: a road-closure term, or a
time-urgency hint together with "road", or a construction misspelling. -/
def roadRule (q : Str) : Bool :=
  roadTerms.any (fun t => containsSub t q)
    || (timeHintTerms.any (fun t => containsSub t q) && containsSub ("road".data) q)
    || constructionTypos.any (fun t => containsSub t q)

def snowRule (q : Str) : Bool := snowTerms.any (fun t => containsSub t q)

def lostFoundRule (q : Str) : Bool :=
  lostPhrases.any (fun t => containsSub t q)
    && transitCoreTerms.any (fun t => containsSub t q)

def transitRule (q : Str) : Bool := transitTerms.any (fun t => containsSub t q)

def weatherRule (q : Str) : Bool := containsSub ("weather".data) q

/-- Model of `classify_dynamic_bucket` from `backend/main.py`. -/
def classify_dynamic_bucket (query : Str) : Option Str :=
  let q := lowerStr query
  if roadRule q then some ("road_closures".data)
  else if snowRule q then some ("snow_removal".data)
  else if lostFoundRule q then some ("transit_lost_found".data)
  else if transitRule q then some ("transit".data)
  else if weatherRule q then some ("weather".data)
  else none

/-- Model of `is_dynamic_query` from `backend/main.py`. -/
def is_dynamic_query (query : Str) : Bool :=
  (classify_dynamic_bucket query).isSome

/-! ## Dynamic official-site sources (`select_dynamic_sources`) -/

/-- An official source `{title, url}`. -/
structure Source where
  title : Str
  url : Str
deriving DecidableEq, Repr

/-- A sitemap entry `{loc, lastmod}` as stored in the sitemap cache. -/
structure SitemapItem where
  loc : Str
  lastmod : Option Str
deriving DecidableEq, Repr

def ALLOWED_DYNAMIC_DOMAINS : List Str :=
  [("cityofkingston.ca".data), ("www.cityofkingston.ca".data),
   ("mycity.cityofkingston.ca".data), ("kingstontransit.ca".data),
   ("www.kingstontransit.ca".data)]

/-- Remainder of `s` after the first occurrence of `pat`. -/
def afterSub (pat : Str) : Str → Option Str
  | [] => if pat = [] then some [] else none
  | c :: cs =>
    if pat.isPrefixOf (c :: cs) then some ((c :: cs).drop pat.length)
    else afterSub pat cs

/-- Model of `urlparse(url).hostname or ""` modelled for the `scheme://host/path`
URLs this backend handles: the lowercased authority component, without
userinfo or port.  A URL without `://` has no network location and yields
the empty host. -/
def hostOf (url : Str) : Str :=
  match afterSub ("://".data) url with
  | none => []
  | some rest =>
    let netloc := rest.takeWhile (fun c => !(c = '/' || c = '?' || c = '#'))
    let noUser :=
      if netloc.contains '@' then (netloc.reverse.takeWhile (· ≠ '@')).reverse
      else netloc
    lowerStr (noUser.takeWhile (· ≠ ':'))

/-- Model of `_is_allowed_domain` from `backend/main.py`. -/
def is_allowed_domain (url : Str) : Bool :=
  hostOf url ∈ ALLOWED_DYNAMIC_DOMAINS

/-- Model of `CURATED_DYNAMIC_SOURCES` from `backend/main.py`. -/
def CURATED_DYNAMIC_SOURCES (b : Str) : List Source :=
  if b = ("road_closures".data) then
    [⟨("Traffic and Road Closures".data),
      ("https://www.cityofkingston.ca/roads-parking-and-transportation/road-maintenance/road-closures/".data)⟩,
     ⟨("Road Closures Map".data),
      ("https://www.cityofkingston.ca/roads-parking-and-transportation/road-maintenance/road-closures/road-closures-map/".data)⟩]
  else if b = ("snow_removal".data) then
    [⟨("Winter Maintenance".data),
      ("https://www.cityofkingston.ca/roads-parking-and-transportation/winter-maintenance/".data)⟩,
     ⟨("Snow Plow Tracker".data),
      ("https://www.cityofkingston.ca/roads-parking-and-transportation/winter-maintenance/snow-plow-tracker/".data)⟩,
     ⟨("Winter Parking".data),
      ("https://www.cityofkingston.ca/roads-parking-and-transportation/parking/winter-parking/".data)⟩]
  else if b = ("transit".data) then
    [⟨("Transit News and Notices".data),
      ("https://www.cityofkingston.ca/news-and-notices/transit-news/".data)⟩]
  else if b = ("transit_lost_found".data) then
    [⟨("Kingston Transit – Lost and Found".data),
      ("https://www.kingstontransit.ca/lost-and-found/".data)⟩]
  else []

/-- Lexicographic (code-point) comparison of strings, as Python string
comparison of `lastmod` values. -/
def lexLe : Str → Str → Bool
  | [], _ => true
  | _ :: _, [] => false
  | a :: as, b :: bs => if a < b then true else if b < a then false else lexLe as bs

/-- The collection loop of `_pick_latest`: walk the sorted matches,
appending each unseen non-empty `loc`, stopping as soon as `limit` urls
have been collected (the length test runs on every iteration). -/
def pickLatestLoop (limit : Nat) : List Str → List SitemapItem → List Str
  | acc, [] => acc.reverse
  | acc, it :: rest =>
    let acc' := if it.loc ≠ [] ∧ it.loc ∉ acc then it.loc :: acc else acc
    if acc'.length ≥ limit then acc'.reverse
    else pickLatestLoop limit acc' rest

/-- Model of `_pick_latest` from `backend/main.py`: substring-filter the cached
sitemap items, stable-sort descending by `lastmod` (missing `lastmod`
compares as the empty string, sorting last), and collect up to `limit`
distinct urls. -/
def pick_latest (items : List SitemapItem) (url_substring : Str)
    (limit : Nat) : List Str :=
  let ms := items.filter (fun it => containsSub url_substring it.loc)
  let sorted := stableSort (fun a b => lexLe (b.lastmod.getD []) (a.lastmod.getD [])) ms
  pickLatestLoop limit [] sorted

/-- Model of `bucket = bucket or classify_dynamic_bucket(query)` (an empty-string
bucket is falsy in Python). -/
def resolvedBucket (bucket : Option Str) (query : Str) : Option Str :=
  match bucket with
  | none => classify_dynamic_bucket query
  | some b => if b = [] then classify_dynamic_bucket query else some b

/-- Model of `CURATED_DYNAMIC_SOURCES.get(bucket, []) if bucket else []`. -/
def curatedFor : Option Str → List Source
  | none => []
  | some b => CURATED_DYNAMIC_SOURCES b

/-- The sitemap-derived `extra_urls` of `select_dynamic_sources`. -/
def sitemapExtras (b : Option Str) (items : List SitemapItem) : List Str :=
  if b = some ("road_closures".data) then
    pick_latest items ("/news/posts/weekly-traffic-report-".data) 3
      ++ pick_latest items ("/news/posts/traffic-report".data) 2
  else if b = some ("transit".data) then
    pick_latest items ("/news/posts/kingston-transit-service-alert".data) 4
      ++ pick_latest items ("/news-and-notices/transit-news/".data) 1
  else if b = some ("snow_removal".data) then
    pick_latest items ("/news/posts/winter-parking".data) 4
      ++ pick_latest items ("/news/posts/winter-services-response-plan".data) 2
  else []

/-- The candidate list fed to the `add` closure: curated sources first,
then sitemap urls with the placeholder title. -/
def dynCandidates (b : Option Str) (items : List SitemapItem) : List Source :=
  curatedFor b ++ (sitemapExtras b items).map (fun u => ⟨("Official update".data), u⟩)

/-- The `add` closure of `select_dynamic_sources`: skip empty urls, urls
already seen, and urls outside the domain allow-list. -/
def dedupAllowedList : List Str → List Source → List Source
  | _, [] => []
  | seen, s :: rest =>
    if s.url = [] ∨ s.url ∈ seen then dedupAllowedList seen rest
    else if !(is_allowed_domain s.url) then dedupAllowedList seen rest
    else s :: dedupAllowedList (s.url :: seen) rest

/-- Model of `select_dynamic_sources` from `backend/main.py`, with the sitemap-cache
contents passed explicitly (`items` is what `_fetch_sitemap_items()`
returned), so the theorems below quantify over every cache state. -/
def select_dynamic_sources (bucket : Option Str) (query : Str)
    (max_results : Nat) (items : List SitemapItem) : List Source :=
  let b := resolvedBucket bucket query
  (dedupAllowedList [] (dynCandidates b items)).take max_results

/-! ## Dynamic context building (`build_dynamic_context`) -/

/-- Model of `extract_page_text` from `backend/main.py`, with the BeautifulSoup
`get_text` step abstracted as the oracle `soupText`. -/
def extract_page_text (soupText : Str → Str) (html : Str) : Str :=
  clean_retrieved_content (soupText html)

/-- One iteration body of the fetch loop of `build_dynamic_context`, for
the source at (1-based) enumerate index `idx`: `none` means the source is
skipped (empty url, disallowed domain, failed fetch — `fetch` returns
`none` when `_http_get` raises — or extracted text shorter than 300).
On success it returns the index, the (possibly title-improved) source and
its citation block `"[idx] title\nURL: url\n\n<snippet>"`. -/
def dynAccept (fetch : Str → Option Str) (soupText : Str → Str)
    (titleOf : Str → Option Str) (p : Nat × Source) :
    Option (Nat × Source × Str) :=
  let idx := p.1
  let src := p.2
  if src.url = [] then none
  else if !(is_allowed_domain src.url) then none
  else
    match fetch src.url with
    | none => none
    | some html =>
      let page_text := extract_page_text soupText html
      if page_text.length < 300 then none
      else
        let snippet := page_text.take 3500
        let t := pyStrip src.title
        let improved :=
          if lowerStr t = ("official update".data) then
            match titleOf html with
            | none => none
            | some ht =>
              let h := pyStrip ht
              if h ≠ [] then some (h.take 120) else none
          else none
        let title := match improved with | some h => h | none => t
        let src' := match improved with
          | some h => { src with title := h }
          | none => src
        let header :=
          ("[".data) ++ Nat.toDigits 10 idx ++ ("] ".data)
            ++ (if title = [] then ("Official source".data) else title)
            ++ ("\nURL: ".data) ++ src.url ++ ("\n".data)
        some (idx, src', header ++ ("\n".data) ++ snippet)

/-- The fetch loop of `build_dynamic_context`: accepted records in order;
the loop stops once `max_results` sources were accepted (the stop test
runs only after an acceptance, as in the source, where `continue`
bypasses it). -/
def dynLoop (A : Nat × Source → Option (Nat × Source × Str)) (m : Nat) :
    Nat → List (Nat × Source) → List (Nat × Source × Str)
  | _, [] => []
  | cnt, p :: rest =>
    match A p with
    | none => dynLoop A m cnt rest
    | some r => if cnt + 1 ≥ m then [r] else r :: dynLoop A m (cnt + 1) rest

/-- Model of `build_dynamic_context` from `backend/main.py`, with the external world
passed as oracles: `items` the sitemap-cache contents, `fetch` the
`_http_get` outcomes, `soupText` the BeautifulSoup text extraction and
`titleOf` the HTML `<title>` lookup. -/
def build_dynamic_context (query : Str) (max_results : Nat)
    (items : List SitemapItem) (fetch : Str → Option Str)
    (soupText : Str → Str) (titleOf : Str → Option Str) :
    List Source × Str :=
  let bucket := classify_dynamic_bucket query
  let sources := select_dynamic_sources bucket query max_results items
  if sources = [] then ([], [])
  else
    let recs := dynLoop (dynAccept fetch soupText titleOf) max_results 0
      (List.enumFrom 1 sources)
    (recs.map (fun r => r.2.1),
     pyStrip (List.intercalate ("\n\n".data) (recs.map (fun r => r.2.2))))

/-! ## Sitemap cache (`_fetch_sitemap_items`) -/

/-- The process-wide `_SITEMAP_CACHE` `{ts, items}`. -/
structure SitemapCache where
  ts : Int
  items : List SitemapItem
deriving DecidableEq, Repr

/-- A `url` element of the parsed sitemap XML: optional `loc` text and
optional `lastmod` text (`none` models a missing element). -/
structure RawSitemapEntry where
  locText : Option Str
  lastmodText : Option Str
deriving DecidableEq, Repr

/-- Model of `_fetch_sitemap_items` from `backend/main.py`, as an explicit state
transformer on the cache.  `now` is the current time, `ttl` the configured
TTL, and `fetchParse` the outcome of fetching and XML-parsing the sitemap
(`none` models any exception in `_http_get` or `ET.fromstring`).  Returns
the item list handed to the caller together with the new cache state. -/
def fetch_sitemap_items (now ttl : Int) (fetchParse : Option (List RawSitemapEntry))
    (cache : SitemapCache) : List SitemapItem × SitemapCache :=
  if cache.items ≠ [] ∧ now - cache.ts < ttl then (cache.items, cache)
  else
    match fetchParse with
    | none => ([], cache)
    | some raws =>
      let items := raws.filterMap (fun r =>
        let loc := pyStrip (r.locText.getD [])
        if loc = [] then none
        else if !(is_allowed_domain loc) then none
        else some (⟨loc, r.lastmodText.map pyStrip⟩ : SitemapItem))
      (items, ⟨now, items⟩)

/-! ## Greeting detection (`is_greeting_or_simple_query`) -/

def exactGreetings : List Str :=
  ["hi", "hello", "hey", "good morning", "good afternoon", "good evening",
   "how are you", "what can you do", "what do you do", "what is this",
   "who are you", "introduce yourself"].map String.data

def simplePatterns : List Str :=
  ["thanks", "thank you", "ok", "okay", "got it", "understood",
   "that's helpful", "that helps"].map String.data

/-- The question-word exclusion list of `is_greeting_or_simple_query`. -/
def questionWords : List Str :=
  ["with", "about", "for", "when", "where", "how", "what", "why",
   "can i", "do i", "should i"].map String.data

/-- Model of `len(s.split())`: number of whitespace-separated words. -/
def wordCountAux : Bool → Str → Nat
  | _, [] => 0
  | inWord, c :: cs =>
    if isSpaceCh c then wordCountAux false cs
    else (if inWord then 0 else 1) + wordCountAux true cs

def wordCount (s : Str) : Nat := wordCountAux false s

/-- Model of `is_greeting_or_simple_query` from `backend/main.py`. -/
def is_greeting_or_simple_query (query : Str) : Bool :=
  let q := pyStrip (lowerStr query)
  if exactGreetings.any (fun p =>
      q = p || (p ++ (" ".data)).isPrefixOf q || (p ++ ("?".data)).isPrefixOf q
        || (p ++ ("!".data)).isPrefixOf q) then
    if questionWords.any (fun w => containsSub w q) then false
    else true
  else if wordCount q ≤ 4 then
    if simplePatterns.any (fun p => q = p || p.isPrefixOf q) then true
    else false
  else false

/-! ## Address extraction (`extract_address_clean`) -/

/-- Scanner for `re.sub(r"(A1|A2|...)", "", s)` with literal alternatives:
at each position the alternatives are tried in pattern order; a match is
deleted and scanning resumes after it. -/
def substAltsAux (alts : List Str) : Nat → Str → Str
  | _, [] => []
  | n + 1, _ :: cs => substAltsAux alts n cs
  | 0, c :: cs =>
    match alts.find? (fun a => a.isPrefixOf (c :: cs)) with
    | some a => substAltsAux alts (a.length - 1) cs
    | none => c :: substAltsAux alts 0 cs

def substAlts (alts : List Str) (s : Str) : Str := substAltsAux alts 0 s

/-- First road-type alternative (in pattern order) matching at the head. -/
def altAt (t : Str) : Option Str :=
  roadSuffixes.find? (fun suf => suf.isPrefixOf t)

/-- Search the road-suffix start offset the backtracking engine settles on
for `[\w\s]+(street|st|...)`: offsets are explored from `hi` down to `lo`. -/
def scanDownSuffix (rest : Str) (lo : Nat) : Nat → Option (Nat × Str)
  | 0 => none
  | hi + 1 =>
    if hi + 1 < lo then none
    else
      match altAt (rest.drop (hi + 1)) with
      | some a => some (hi + 1, a)
      | none => scanDownSuffix rest lo hi

/-- Match of `(\d+\s+[\w\s]+(?:street|st|...))` anchored at the start of
`s`, returning the text of group 1.  `\d+` and `\s+` resolve to the
maximal runs (shorter splits put a wrong character class next); `[\w\s]+`
is greedy, so the engine picks the rightmost suffix offset reachable with
the maximal space run first (offsets `> m`), and only then the offset
exactly at the end of the space run, which needs a shortened `\s+` and is
therefore reachable only when the run has at least two spaces. -/
def p1MatchAt (s : Str) : Option Str :=
  let D := s.takeWhile isDigitCh
  if D = [] then none
  else
    let rest := s.drop D.length
    let m := (rest.takeWhile isSpaceCh).length
    if m = 0 then none
    else
      let A := rest.takeWhile (fun c => isWordCh c || isSpaceCh c)
      match scanDownSuffix rest (m + 1) A.length with
      | some pa => some (D ++ rest.take pa.1 ++ pa.2)
      | none =>
        if 2 ≤ m then
          match altAt (rest.drop m) with
          | some a => some (D ++ rest.take m ++ a)
          | none => none
        else none

/-- Match of `(\d+\s+division(?:\s+st(?:reet)?)?)` anchored at the start. -/
def p2MatchAt (s : Str) : Option Str :=
  let D := s.takeWhile isDigitCh
  if D = [] then none
  else
    let rest := s.drop D.length
    let W := rest.takeWhile isSpaceCh
    if W = [] then none
    else
      let t := rest.drop W.length
      if ("division".data).isPrefixOf t then
        let base := D ++ W ++ ("division".data)
        let t2 := t.drop 8
        let W2 := t2.takeWhile isSpaceCh
        if W2 ≠ [] then
          let t3 := t2.drop W2.length
          if ("street".data).isPrefixOf t3 then some (base ++ W2 ++ ("street".data))
          else if ("st".data).isPrefixOf t3 then some (base ++ W2 ++ ("st".data))
          else some base
        else some base
      else none

/-- Match of `(\d+\s+[\w]+(?:\s+division)?)` anchored at the start. -/
def p3MatchAt (s : Str) : Option Str :=
  let D := s.takeWhile isDigitCh
  if D = [] then none
  else
    let rest := s.drop D.length
    let W := rest.takeWhile isSpaceCh
    if W = [] then none
    else
      let t := rest.drop W.length
      let wd := t.takeWhile isWordCh
      if wd = [] then none
      else
        let t2 := t.drop wd.length
        let W2 := t2.takeWhile isSpaceCh
        if W2 ≠ [] ∧ ("division".data).isPrefixOf (t2.drop W2.length) then
          some (D ++ W ++ wd ++ W2 ++ ("division".data))
        else some (D ++ W ++ wd)

/-- Model of `re.search`: the match at the leftmost position where one exists. -/
def searchFirst (f : Str → Option Str) : Str → Option Str
  | [] => f []
  | c :: cs =>
    match f (c :: cs) with
    | some r => some r
    | none => searchFirst f cs

/-- Model of `re.sub(r"[.,;!?]+$", "", s)`. -/
def stripTrailingPunct (s : Str) : Str :=
  (s.reverse.dropWhile (fun c =>
    c = '.' || c = ',' || c = ';' || c = '!' || c = '?')).reverse

/-- Model of `s.split()`: whitespace-separated words. -/
def pySplitAux : Str → Str → List Str
  | cur, [] => if cur = [] then [] else [cur.reverse]
  | cur, c :: cs =>
    if isSpaceCh c then
      if cur = [] then pySplitAux [] cs else cur.reverse :: pySplitAux [] cs
    else pySplitAux (c :: cur) cs

def pySplit (s : Str) : List Str := pySplitAux [] s

def addrCleanAlts : List Str :=
  ["check for", "look up", "find", "my address is", "address is",
   "address:"].map String.data

def addrStopWords : List Str :=
  ["check", "for", "this", "my", "address", "is", "the", "a", "an"].map
    String.data

/-- Per-pattern post-processing of `extract_address_clean`: strip, remove
trailing punctuation, keep only addresses longer than 5 characters. -/
def postAddress (g : Str) : Option Str :=
  let a := stripTrailingPunct (pyStrip g)
  if 5 < a.length then some a else none

/-- Model of `extract_address_clean` from `backend/main.py`. -/
def extract_address_clean (query : Str) : Option Str :=
  let qc := pyStrip (substAlts addrCleanAlts (lowerStr query))
  match (searchFirst p1MatchAt qc).bind postAddress with
  | some a => some a
  | none =>
    match (searchFirst p2MatchAt qc).bind postAddress with
    | some a => some a
    | none =>
      match (searchFirst p3MatchAt qc).bind postAddress with
      | some a => some a
      | none =>
        if qc.any isDigitCh ∧ 2 ≤ (pySplit qc).length then
          let parts := ((pySplit qc).take 4).filter (fun w => w ∉ addrStopWords)
          if 2 ≤ parts.length then
            some (pyStrip (List.intercalate (" ".data) parts))
          else none
        else none

/-! ## Intent classification wrapper (`classify_question_intent_ai`) -/

/-- Model of `result.split("|")` (all separators, empty parts kept). -/
def splitBarAux : Str → Str → List Str
  | cur, [] => [cur.reverse]
  | cur, c :: cs =>
    if c = '|' then cur.reverse :: splitBarAux [] cs
    else splitBarAux (c :: cur) cs

def splitBar (s : Str) : List Str := splitBarAux [] s

/-- Model of `classify_question_intent_ai` from `backend/main.py`.  `aiResult` is the
content of the classification completion (`none` models an exception in
the OpenAI call, caught by the surrounding `try`).  A response with more
than one `|` makes the two-name unpacking raise `ValueError`, which the
same `except` turns into the fallback; a response without `|` falls back
explicitly. -/
def classify_question_intent_ai (aiResult : Option Str) (query : Str) :
    Str × Str :=
  match aiResult with
  | none => classify_question_intent_fallback query
  | some content =>
    let result := lowerStr (pyStrip content)
    if containsSub ("|".data) result then
      let parts := splitBar result
      if parts.length = 2 then
        let intent_type := pyStrip (parts.getD 0 [])
        let category := pyStrip (parts.getD 1 [])
        if intent_type = ("out_of_scope".data) ∨ category = ("none".data) then
          (("out_of_scope".data), ("none".data))
        else (intent_type, category)
      else classify_question_intent_fallback query
    else classify_question_intent_fallback query

/-- Model of `classify_question_intent` from `backend/main.py`. -/
def classify_question_intent (aiResult : Option Str) (query : Str) :
    Str × Str :=
  classify_question_intent_ai aiResult query

/-! ## The non-streaming `/query` handler (`query_pinecone`) -/

structure QueryRequest' where
  query : Str
  top_k : Nat
  session_id : Option Str
  language : Str
deriving DecidableEq, Repr

structure QueryResponse' where
  answer : Str
  results : List RagResult
  query : Str
  intent : Option Str
  requires_address : Bool
  workflow_state : Option Str
deriving DecidableEq, Repr

/-- Outcomes of the LangChain generation calls the `/query` handler can
issue, as functions of the prompt inputs the handler passes them. -/
structure LlmOracles where
  chainAnswer : Str → Str → Str → Str
  strictMissingAnswer : Str → Str → Str
  strictCategoryAnswer : Str → Str → Str → Str

/-- The dynamic official-site capabilities (sitemap cache, page fetching,
HTML extraction).  Only the streaming endpoint uses them. -/
structure DynOracles where
  sitemapItems : List SitemapItem
  fetch : Str → Option Str
  soupText : Str → Str
  titleOf : Str → Option Str

/-- The language-adaptation capabilities (`detect_language`,
`translate_text`).  Only the streaming endpoint uses them. -/
structure LangOracles where
  detectLang : Str → Str
  translate : Str → Str → Str → Str

/-- The two mailing-address removal substitutions applied to generated
answers (`re.sub(r"Make your cheque payable...Kingston, ON K7L 4X1...", "", answer)`). -/
def removeMailingInfo (answer : Str) : Str :=
  let a1 := substSpan []
    ("Make your cheque payable to City of Kingston and mail it to".data)
    [("Kingston, ON K7L 4X1".data)] answer
  substSpan [] ("Make your cheque payable".data)
    [("PO Box 640".data), ("Kingston, ON K7L 4X1".data)] a1

/-- The "LLM claims the context is missing" detection of the handler. -/
def saysContextMissing (answer : Str) : Bool :=
  let al := lowerStr answer
  containsSub ("context".data) al
    && (containsSub ("missing".data) al || containsSub ("not provided".data) al
        || containsSub ("seems that the context".data) al)

def greetingResponses : List Str :=
  ["Hello! I'm the City of Kingston 311 assistant. I can help answer questions about city services, policies, and information. What can I help you with today?",
   "Hi! How can I help you with City of Kingston services today?",
   "Hey! I'm here to help with questions about Kingston city services. What would you like to know?"].map
    String.data

def formsKeywords : List Str :=
  ["form", "application", "apply", "submit"].map String.data

/-- The `unrelated_categories` table of the handler. -/
def unrelatedFor (category : Str) : Option (List Str) :=
  if category = ("parking".data) then
    some (["garbage", "waste", "collection calendar", "recycling"].map String.data)
  else if category = ("property_tax".data) then
    some (["garbage", "waste", "parking", "collection"].map String.data)
  else if category = ("waste_collection".data) then
    some (["parking permit", "property tax"].map String.data)
  else if category = ("hazardous_waste".data) then
    some (["parking", "tax", "collection calendar"].map String.data)
  else if category = ("fire_permits".data) then
    some (["garbage", "parking", "tax"].map String.data)
  else if category = ("noise".data) then
    some (["garbage", "parking", "tax", "collection"].map String.data)
  else none

def calendarUrl : Str :=
  ("https://www.cityofkingston.ca/garbage-and-recycling/collection-calendar/".data)

/-- The answer post-processing chain of the RAG branch of `/query`: the
LangChain answer, mailing-info removal, the context-missing strict
regeneration, the forms link, and the unrelated-category strict
regeneration (which fires at most once and only outside
`waste_collection`). -/
def ragAnswer (llm : LlmOracles) (category context question : Str)
    (source_urls : List Str) (is_greeting : Bool) : Str :=
  let answer0 := llm.chainAnswer category context question
  let answer1 := removeMailingInfo answer0
  let answer2 :=
    if saysContextMissing answer1 then llm.strictMissingAnswer context question
    else answer1
  let forms_mentioned := formsKeywords.any (fun k => containsSub k (lowerStr answer2))
  let answer3 :=
    if forms_mentioned ∧ source_urls ≠ [] ∧ ¬ is_greeting then
      if !(containsSub ("http".data) answer2) then
        answer2 ++ ("

To apply, visit: ".data) ++ source_urls.getD 0 []
      else answer2
    else answer2
  match unrelatedFor category with
  | none => answer3
  | some forbidden =>
    if category ≠ ("waste_collection".data)
        ∧ forbidden.any (fun t => containsSub t (lowerStr answer3)) then
      llm.strictCategoryAnswer category context question
    else answer3

/-- Model of `query_pinecone`, the non-streaming `/query` handler from
`backend/main.py`.  External outcomes are passed as oracles: `aiResult`
the classification completion, `ms` the Pinecone matches returned for the
embedded query (after the `to_item` conversion), `greetingPick` the
`random.choice` draw, `llm` the generation results.  `dyn` and `lang`
carry the dynamic-search and language-adaptation capabilities that exist
in the process; the handler receives them here precisely so the theorems
can state that its result never depends on them. -/
def query_pinecone (dyn : DynOracles) (lang : LangOracles)
    (aiResult : Option Str) (ms : List RagItem) (greetingPick : Nat)
    (llm : LlmOracles) (req : QueryRequest') : QueryResponse' :=
  let ic := classify_question_intent aiResult req.query
  let intent_type := ic.1
  let category := ic.2
  let user_address := extract_address_clean req.query
  let wsra : Option Str × Bool :=
    if intent_type = ("live_status_lookup".data) then
      match user_address with
      | some _ => (some ("ADDRESS_RECEIVED".data), false)
      | none => (some ("WAITING_FOR_ADDRESS".data), true)
    else (none, false)
  if intent_type = ("live_status_lookup".data) then
    match user_address with
    | some addr =>
      { answer := ("I've noted your address: ".data) ++ addr
          ++ (". To find your specific garbage collection day, please visit the City's official waste collection calendar at ".data)
          ++ calendarUrl
          ++ (" and enter your address there. The calendar will show you your exact collection schedule.".data)
        results := []
        query := req.query
        intent := some intent_type
        requires_address := wsra.2
        workflow_state := wsra.1 }
    | none =>
      { answer := ("Garbage collection days depend on your address. Please provide your address (e.g., '576 Division Street') so I can direct you to check your specific collection schedule.".data)
        results := []
        query := req.query
        intent := some intent_type
        requires_address := wsra.2
        workflow_state := wsra.1 }
  else
    let is_greeting := is_greeting_or_simple_query req.query
    if is_greeting then
      { answer := greetingResponses.getD (greetingPick % greetingResponses.length) []
        results := []
        query := req.query
        intent := some intent_type
        requires_address := wsra.2
        workflow_state := wsra.1 }
    else
      let fc := select_context_and_results ms category req.top_k
      let formatted_results := fc.1
      let context_parts := fc.2
      if context_parts ≠ [] then
        let context := List.intercalate ("\n\n".data) context_parts
        let formatted2 := if is_greeting then [] else formatted_results
        let source_urls :=
          (formatted2.filter (fun r => r.source_url ≠ [])).map (fun r => r.source_url)
        { answer := ragAnswer llm category context req.query source_urls is_greeting
          results := formatted2
          query := req.query
          intent := some intent_type
          requires_address := wsra.2
          workflow_state := wsra.1 }
      else
        { answer := ("I couldn't find specific information about that. Please try rephrasing your question or contact 311 at 613-546-0000.".data)
          results := formatted_results
          query := req.query
          intent := some intent_type
          requires_address := wsra.2
          workflow_state := wsra.1 }

/-! ## Concrete instances used later as witness and counterexample inputs -/

def w1Item : RagItem :=
  ⟨1, List.replicate 250 'a', ("parking".data), [], ("u1".data)⟩

/-- The 21-item input of the C2 counterexample: twenty highest-scoring items
with empty content followed by one low-scoring item whose content passes
the 200-character check, sitting just outside the 20-item candidate
window used when `top_k = 1`. -/
def c2Items : List RagItem :=
  (List.range 20).map (fun i => ⟨(21 : Int) - i, [], [], [], []⟩)
    ++ [⟨0, List.replicate 201 'a', [], [], []⟩]

/-- The street-address shape that the fallback classifier's pattern
`\d+\s+\w+\s+(street|st|...)` recognizes, stated as an explicit
decomposition of the text rather than via the scanner. -/
def HasAddressShape (q : Str) : Prop :=
  ∃ (pre ds w1 wd w2 suf rest : Str),
    q = pre ++ (ds ++ (w1 ++ (wd ++ (w2 ++ (suf ++ rest)))))
      ∧ ds ≠ [] ∧ (∀ c ∈ ds, isDigitCh c = true)
      ∧ w1 ≠ [] ∧ (∀ c ∈ w1, isSpaceCh c = true)
      ∧ wd ≠ [] ∧ (∀ c ∈ wd, isWordCh c = true)
      ∧ w2 ≠ [] ∧ (∀ c ∈ w2, isSpaceCh c = true)
      ∧ suf ∈ roadSuffixes

/-- The fixed priority order of the fallback classifier's keyword
categories, as the spec states it: parking, property_tax,
waste_collection, hazardous_waste, fire_permits, noise, with
`waste_collection` as the no-match default. -/
def fallbackPriorityCategory (q : Str) : Str :=
  if parkingTerms.any (fun t => containsSub t q) then ("parking".data)
  else if propertyTaxTerms.any (fun t => containsSub t q) then ("property_tax".data)
  else if wasteTerms.any (fun t => containsSub t q) then ("waste_collection".data)
  else if hazardousTerms.any (fun t => containsSub t q) then ("hazardous_waste".data)
  else if fireTerms.any (fun t => containsSub t q) then ("fire_permits".data)
  else if noiseTerms.any (fun t => containsSub t q) then ("noise".data)
  else ("waste_collection".data)

/-- The accepted records of `build_dynamic_context`, characterized directly:
the enumerated candidate sources are filtered by the acceptance test and
truncated at the acceptance cap. -/
def dynAcceptedRecs (query : Str) (maxResults : Nat)
    (items : List SitemapItem) (fetch : Str → Option Str)
    (soupText : Str → Str) (titleOf : Str → Option Str) :
    List (Nat × Source × Str) :=
  ((List.enumFrom 1 (select_dynamic_sources (classify_dynamic_bucket query)
      query maxResults items)).filterMap
    (dynAccept fetch soupText titleOf)).take (max maxResults 1)

def c7Fetch : Str → Option Str := fun u =>
  if u = ("https://www.cityofkingston.ca/roads-parking-and-transportation/road-maintenance/road-closures/road-closures-map/".data)
  then some (List.replicate 300 'a') else none

def w7Fetch : Str → Option Str := fun u =>
  if u = ("https://www.cityofkingston.ca/roads-parking-and-transportation/road-maintenance/road-closures/".data)
  then some (List.replicate 300 'b') else none

def w10Dyn : DynOracles := ⟨[], fun _ => none, fun s => s, fun _ => none⟩

def w10Lang : LangOracles := ⟨fun _ => ("en".data), fun t _ _ => t⟩

def w10Llm : LlmOracles :=
  ⟨fun _ _ _ => ("ok".data), fun _ _ => ("ok".data), fun _ _ _ => ("ok".data)⟩

def w10Req : QueryRequest' := ⟨("parking permit rules".data), 5, none, ("en".data)⟩

def w10Item : RagItem :=
  ⟨1, List.replicate 250 'c', ("parking".data), [], ("u1".data)⟩

/-! ## Length lemmas for the cleaning scanners -/

theorem dropWhile_length_le (p : Char → Bool) (l : Str) :
    (l.dropWhile p).length ≤ l.length := by
  induction l with
  | nil => simp
  | cons c cs ih =>
    by_cases h : p c
    · simp only [List.dropWhile_cons, h, if_true, List.length_cons]
      omega
    · simp [List.dropWhile_cons, h]

theorem pyStrip_length (s : Str) : (pyStrip s).length ≤ s.length := by
  unfold pyStrip
  have h1 := dropWhile_length_le isSpaceCh s
  have h2 := dropWhile_length_le isSpaceCh (s.dropWhile isSpaceCh).reverse
  simp only [List.length_reverse] at *
  omega

theorem substKwAux_length (k0 : Char) (ks : Str) (n : Nat) (prev : Option Char)
    (s : Str) : (substKwAux k0 ks n prev s).length ≤ s.length := by
  induction s generalizing n prev with
  | nil => simp [substKwAux]
  | cons c cs ih =>
    match n with
    | n + 1 =>
      simp only [substKwAux, List.length_cons]
      exact Nat.le_succ_of_le (ih n prev)
    | 0 =>
      simp only [substKwAux]
      split
      · simp only [List.length_cons]
        exact Nat.succ_le_succ (ih _ _)
      · simp only [List.length_cons]
        exact Nat.succ_le_succ (ih _ _)

theorem substKw_length (kw s : Str) : (substKw kw s).length ≤ s.length := by
  cases kw with
  | nil => simp [substKw]
  | cons k ks => exact substKwAux_length k ks 0 none s

theorem substSpanAux_length (rep : Str) (hrep : rep.length ≤ 1) (p0 : Char)
    (ps : Str) (lms : List Str) (n : Nat) (s : Str) :
    (substSpanAux rep p0 ps lms n s).length ≤ s.length := by
  induction s generalizing n with
  | nil => simp [substSpanAux]
  | cons c cs ih =>
    match n with
    | n + 1 =>
      simp only [substSpanAux, List.length_cons]
      exact Nat.le_succ_of_le (ih n)
    | 0 =>
      simp only [substSpanAux]
      by_cases hp : ciPrefixOf (p0 :: ps) (c :: cs)
      · rw [if_pos hp]
        rcases hcl : chainLandmarks lms (cs.drop ps.length) with _ | off
        · dsimp only
          simp only [List.length_cons]
          exact Nat.succ_le_succ (ih 0)
        · dsimp only
          simp only [List.length_append, List.length_cons]
          have := ih (ps.length + off + blankOrEndFrom ((cs.drop ps.length).drop off))
          omega
      · rw [if_neg hp]
        simp only [List.length_cons]
        exact Nat.succ_le_succ (ih 0)

theorem substSpan_length (rep pre : Str) (hrep : rep.length ≤ 1)
    (lms : List Str) (s : Str) : (substSpan rep pre lms s).length ≤ s.length := by
  cases pre with
  | nil => simp [substSpan]
  | cons p ps => exact substSpanAux_length rep hrep p ps lms 0 s

theorem collapseSTAux_length (b : Bool) (s : Str) :
    (collapseSTAux b s).length ≤ s.length := by
  induction s generalizing b with
  | nil => simp [collapseSTAux]
  | cons c cs ih =>
    simp only [collapseSTAux]
    split
    · split
      · exact Nat.le_succ_of_le (ih true)
      · simp only [List.length_cons]
        exact Nat.succ_le_succ (ih true)
    · simp only [List.length_cons]
      exact Nat.succ_le_succ (ih false)

theorem collapseNlAux_length (n : Nat) (s : Str) :
    (collapseNlAux n s).length ≤ s.length - n := by
  induction s generalizing n with
  | nil => simp [collapseNlAux]
  | cons c cs ih =>
    match n with
    | n + 1 =>
      simp only [collapseNlAux, List.length_cons]
      have := ih n
      omega
    | 0 =>
      simp only [collapseNlAux]
      split
      · rename_i h
        simp only [List.length_cons]
        have h2 : 2 ≤ (cs.takeWhile (· = '\n')).length := by
          rcases Bool.and_eq_true_iff.mp h with ⟨-, h2⟩
          exact of_decide_eq_true h2
        have := ih (cs.takeWhile (· = '\n')).length
        have h4 : (cs.takeWhile (· = '\n')).length ≤ cs.length :=
          (List.takeWhile_sublist _).length_le
        omega
      · simp only [List.length_cons]
        have := ih 0
        omega

theorem collapseNl_length (s : Str) : (collapseNl s).length ≤ s.length := by
  have := collapseNlAux_length 0 s
  simpa [collapseNl] using this

theorem collapseST_length (s : Str) : (collapseST s).length ≤ s.length :=
  collapseSTAux_length false s

theorem clean_retrieved_content_length (raw : Str) :
    (clean_retrieved_content raw).length ≤ raw.length := by
  unfold clean_retrieved_content
  split
  · simp
  · exact le_trans (pyStrip_length _) <| le_trans (collapseNl_length _) <|
      le_trans (collapseST_length _) <|
      le_trans (substSpan_length (" ".data) _ (by decide) _ _) <|
      le_trans (substSpan_length (" ".data) _ (by decide) _ _) <|
      le_trans (substKw_length _ _) <| le_trans (substKw_length _ _) <|
      le_trans (substKw_length _ _) (substKw_length _ _)

/-- C3 (amended): the content cleaner `_clean_retrieved_content` never
produces output longer than its input, and returns the empty string on
empty (or null, which reaches the same guard) input without raising.  The
idempotence half of the claim is false: see `C3_not_idempotent`. -/
theorem C3_cleaner_shrinking_and_empty :
    (∀ raw : Str, (clean_retrieved_content raw).length ≤ raw.length)
      ∧ clean_retrieved_content [] = [] :=
  ⟨clean_retrieved_content_length, by decide⟩

/-- C3 counterexample: the cleaner is not idempotent.  On `"Section  Menu"`
(two spaces) the boilerplate pass does not fire, but whitespace collapsing
then produces `"Section Menu"`, which a second cleaning removes entirely:
cleaning once gives `"Section Menu"`, cleaning twice gives `""`. -/
theorem C3_not_idempotent :
    clean_retrieved_content (clean_retrieved_content ("Section  Menu".data))
      ≠ clean_retrieved_content ("Section  Menu".data) := by decide

/-- C9: each of the exact queries `"how are you"`, `"what can you do"`,
`"what do you do"` and `"what is this"` is a member of the greeting
detector's own `exact_greetings` list, and yet
`is_greeting_or_simple_query` returns `False` on it, because the
question-word exclusion check ("how", "what", ...) overrides the greeting
match — these listed greetings are never treated as greetings. -/
theorem C9_listed_greetings_rejected :
    (("how are you".data) ∈ exactGreetings
        ∧ is_greeting_or_simple_query ("how are you".data) = false)
      ∧ (("what can you do".data) ∈ exactGreetings
        ∧ is_greeting_or_simple_query ("what can you do".data) = false)
      ∧ (("what do you do".data) ∈ exactGreetings
        ∧ is_greeting_or_simple_query ("what do you do".data) = false)
      ∧ (("what is this".data) ∈ exactGreetings
        ∧ is_greeting_or_simple_query ("what is this".data) = false) := by
  decide

/-! ## Invariants of the context assembler (C1, C2) -/

theorem buildFromAux_ctx_length (k : Nat) :
    ∀ (l : List RagItem) (cnt : Nat) (seen : List Str),
      ∀ c ∈ (buildFromAux k cnt seen l).2, 200 ≤ c.length := by
  intro l
  induction l with
  | nil => intro cnt seen c hc; simp [buildFromAux] at hc
  | cons item rest ih =>
    intro cnt seen c hc
    rw [buildFromAux] at hc
    split at hc
    · exact ih cnt seen c hc
    · split at hc
      · exact ih cnt seen c hc
      · rename_i hdup hshort
        split at hc
        · simp only [List.mem_singleton] at hc
          subst hc
          simp only [mkContextBlock, List.length_take]
          omega
        · simp only at hc
          rcases List.mem_cons.mp hc with rfl | hc'
          · simp only [mkContextBlock, List.length_take]
            omega
          · exact ih (cnt + 1) (updateSeen seen item.source_url) c hc'

theorem buildFromAux_sublist (k : Nat) :
    ∀ (l : List RagItem) (cnt : Nat) (seen : List Str),
      (buildFromAux k cnt seen l).1.Sublist (l.map mkRagResult) := by
  intro l
  induction l with
  | nil => intro cnt seen; simp [buildFromAux]
  | cons item rest ih =>
    intro cnt seen
    rw [buildFromAux]
    split
    · exact (ih cnt seen).cons _
    · split
      · exact (ih cnt seen).cons _
      · split
        · simp
        · simpa using List.Sublist.cons₂ (mkRagResult item)
            (ih (cnt + 1) (updateSeen seen item.source_url))

/-- The urls of accepted results are fresh with respect to `seen`, and no
two accepted results share a non-empty url. -/
theorem buildFromAux_urls (k : Nat) :
    ∀ (l : List RagItem) (cnt : Nat) (seen : List Str),
      (∀ r ∈ (buildFromAux k cnt seen l).1, r.source_url = [] ∨ r.source_url ∉ seen)
        ∧ List.Pairwise
            (fun a b : RagResult => a.source_url = [] ∨ a.source_url ≠ b.source_url)
            (buildFromAux k cnt seen l).1 := by
  intro l
  induction l with
  | nil => intro cnt seen; simp [buildFromAux]
  | cons item rest ih =>
    intro cnt seen
    rw [buildFromAux]
    split
    · exact ih cnt seen
    · split
      · exact ih cnt seen
      · rename_i hdup hshort
        split
        · constructor
          · intro r hr
            simp only [List.mem_singleton] at hr
            subst hr
            simp only [mkRagResult]
            by_cases hu : item.source_url = []
            · exact Or.inl hu
            · exact Or.inr (fun hmem => hdup ⟨hu, hmem⟩)
          · simp
        · simp only
          have ihp := ih (cnt + 1) (updateSeen seen item.source_url)
          constructor
          · intro r hr
            rcases List.mem_cons.mp hr with rfl | hr'
            · simp only [mkRagResult]
              by_cases hu : item.source_url = []
              · exact Or.inl hu
              · exact Or.inr (fun hmem => hdup ⟨hu, hmem⟩)
            · rcases ihp.1 r hr' with h | h
              · exact Or.inl h
              · refine Or.inr (fun hmem => h ?_)
                unfold updateSeen
                split
                · exact List.mem_cons_of_mem _ hmem
                · exact hmem
          · refine List.Pairwise.cons ?_ ihp.2
            intro b hb
            by_cases hu : item.source_url = []
            · exact Or.inl (by simpa [mkRagResult] using hu)
            · refine Or.inr ?_
              simp only [mkRagResult]
              intro heq
              rcases ihp.1 b hb with hb' | hb'
              · rw [← heq] at hb'
                exact hu hb'
              · apply hb'
                rw [← heq]
                unfold updateSeen
                rw [if_pos hu]
                exact List.mem_cons_self _ _

theorem mem_stableInsert {α : Type} (le : α → α → Bool) (a x : α)
    (l : List α) : x ∈ stableInsert le a l ↔ x = a ∨ x ∈ l := by
  induction l with
  | nil => simp [stableInsert]
  | cons b bs ih =>
    simp only [stableInsert]
    split
    · simp [List.mem_cons]
    · simp only [List.mem_cons, ih]
      tauto

theorem mem_stableSort {α : Type} (le : α → α → Bool) (x : α) (l : List α) :
    x ∈ stableSort le l ↔ x ∈ l := by
  induction l with
  | nil => simp [stableSort]
  | cons a as ih =>
    simp only [stableSort, mem_stableInsert, ih, List.mem_cons]

theorem stableInsert_pairwise {α : Type} (le : α → α → Bool)
    (total : ∀ a b, le a b = true ∨ le b a = true)
    (trans : ∀ a b c, le a b = true → le b c = true → le a c = true)
    (a : α) (l : List α)
    (hl : List.Pairwise (fun x y => le x y = true) l) :
    List.Pairwise (fun x y => le x y = true) (stableInsert le a l) := by
  induction l with
  | nil => simp [stableInsert]
  | cons b bs ih =>
    simp only [stableInsert]
    split
    · rename_i hab
      refine List.Pairwise.cons ?_ hl
      intro c hc
      rcases List.mem_cons.mp hc with rfl | hc'
      · exact hab
      · exact trans a b c hab (List.rel_of_pairwise_cons hl hc')
    · rename_i hab
      have hba : le b a = true := by
        rcases total a b with h | h
        · exact absurd h hab
        · exact h
      refine List.Pairwise.cons ?_ (ih hl.tail)
      intro c hc
      rcases (mem_stableInsert le a c bs).mp hc with rfl | hc'
      · exact hba
      · exact List.rel_of_pairwise_cons hl hc'

theorem stableSort_pairwise {α : Type} (le : α → α → Bool)
    (total : ∀ a b, le a b = true ∨ le b a = true)
    (trans : ∀ a b c, le a b = true → le b c = true → le a c = true)
    (l : List α) :
    List.Pairwise (fun x y => le x y = true) (stableSort le l) := by
  induction l with
  | nil => simp [stableSort]
  | cons a as ih => exact stableInsert_pairwise le total trans a _ ih

/-- The sorted list produced by `_select_context_and_results` is in
descending score order. -/
theorem sortByScore_pairwise (l : List RagItem) :
    List.Pairwise (fun a b : RagItem => b.score ≤ a.score) (sortByScore l) := by
  have h := stableSort_pairwise (fun a b : RagItem => decide (b.score ≤ a.score))
    (fun a b => by
      rcases Int.le_total b.score a.score with h | h
      · exact Or.inl (decide_eq_true h)
      · exact Or.inr (decide_eq_true h))
    (fun a b c hab hbc => by
      simp only [decide_eq_true_eq] at *
      omega)
    l
  exact h.imp (fun hab => of_decide_eq_true hab)

theorem categoryFiltered_pairwise {R : RagItem → RagItem → Prop}
    {items : List RagItem} (h : List.Pairwise R items) (en : Str) :
    List.Pairwise R (categoryFiltered items en) := by
  unfold categoryFiltered
  split
  · exact h.filter _
  · exact h

/-- Accepted results are (in order) a sublist of the formatted candidate
window, so score order is preserved. -/
theorem buildFrom_pairwise_score (k : Nat) (cands : List RagItem)
    (h : List.Pairwise (fun a b : RagItem => b.score ≤ a.score) cands) :
    List.Pairwise (fun a b : RagResult => b.score ≤ a.score)
      (buildFrom k cands).1 := by
  have hsub := buildFromAux_sublist k (cands.take (max (k * 6) 20)) 0 []
  have hw : List.Pairwise (fun a b : RagItem => b.score ≤ a.score)
      (cands.take (max (k * 6) 20)) :=
    List.Pairwise.sublist (List.take_sublist _ _) h
  have hmap : List.Pairwise (fun a b : RagResult => b.score ≤ a.score)
      ((cands.take (max (k * 6) 20)).map mkRagResult) := by
    rw [List.pairwise_map]
    exact hw.imp (fun hab => by simpa [mkRagResult] using hab)
  exact List.Pairwise.sublist hsub hmap

/-- C1: in every context set assembled by `_select_context_and_results` —
for every list of search matches, every expected category and every
`top_k` — no two accepted items share the same non-empty `source_url`,
every accepted context block comes from cleaned content of length at least
the 200-character minimum (so each block itself has length ≥ 200), and the
accepted items appear in descending order of their relevance score. -/
theorem C1_context_set_invariants (ms : List RagItem) (expected_category : Str)
    (top_k : Nat) :
    List.Pairwise
        (fun a b : RagResult => a.source_url = [] ∨ a.source_url ≠ b.source_url)
        (select_context_and_results ms expected_category top_k).1
      ∧ (∀ c ∈ (select_context_and_results ms expected_category top_k).2,
          200 ≤ c.length)
      ∧ List.Pairwise (fun a b : RagResult => b.score ≤ a.score)
        (select_context_and_results ms expected_category top_k).1 := by
  have hsort := sortByScore_pairwise ms
  have hfilt :=
    categoryFiltered_pairwise hsort (normalize_category expected_category)
  simp only [select_context_and_results]
  split
  · exact ⟨(buildFromAux_urls _ _ 0 []).2, buildFromAux_ctx_length _ _ 0 [],
      buildFrom_pairwise_score _ _ hsort⟩
  · exact ⟨(buildFromAux_urls _ _ 0 []).2, buildFromAux_ctx_length _ _ 0 [],
      buildFrom_pairwise_score _ _ hfilt⟩

theorem C1_context_set_invariants_witness :
    200 ≤ ((select_context_and_results [w1Item] ("parking".data) 1).2.headD []).length :=
  (C1_context_set_invariants [w1Item] ("parking".data) 1).2.1 _ (by decide)

/-- If the loop accepted nothing, every candidate was either a duplicate of
a `seen` url or cleaned to fewer than 200 characters. -/
theorem buildFromAux_all_short_of_ctx_nil (k : Nat) :
    ∀ (l : List RagItem) (cnt : Nat) (seen : List Str),
      (buildFromAux k cnt seen l).2 = [] →
      ∀ it ∈ l, (it.source_url ≠ [] ∧ it.source_url ∈ seen)
        ∨ (clean_retrieved_content it.raw_content).length < 200 := by
  intro l
  induction l with
  | nil => intro cnt seen _ it hit; simp at hit
  | cons item rest ih =>
    intro cnt seen hnil it hit
    rw [buildFromAux] at hnil
    split at hnil
    · rcases List.mem_cons.mp hit with rfl | hit'
      · rename_i hdup
        exact Or.inl hdup
      · exact ih cnt seen hnil it hit'
    · split at hnil
      · rcases List.mem_cons.mp hit with rfl | hit'
        · rename_i hshort
          exact Or.inr hshort
        · exact ih cnt seen hnil it hit'
      · split at hnil
        · simp at hnil
        · simp at hnil

/-- C2 (amended): if restricting the candidates to the expected normalized
category yields zero accepted context blocks, `_select_context_and_results`
re-runs the same selection over the full unfiltered item list; and when the
returned context list is empty, every item among the `max(6·top_k, 20)`
highest-scoring unfiltered candidates fails the cleaning/minimum-length
check.  (The original claim's stronger conclusion — that then *no* item of
the unfiltered list passes the checks — is false, because the selection
only ever examines that candidate window: see `C2_falsified`.) -/
theorem C2_category_fallback (ms : List RagItem) (expected_category : Str)
    (top_k : Nat) :
    ((buildFrom top_k (categoryFiltered (sortByScore ms)
          (normalize_category expected_category))).2 = []
        → select_context_and_results ms expected_category top_k
            = buildFrom top_k (sortByScore ms))
      ∧ ((select_context_and_results ms expected_category top_k).2 = []
        → ∀ it ∈ (sortByScore ms).take (max (top_k * 6) 20),
            (clean_retrieved_content it.raw_content).length < 200) := by
  constructor
  · intro h
    simp only [select_context_and_results]
    rw [if_pos h]
  · intro h it hit
    have hempty : (buildFrom top_k (sortByScore ms)).2 = [] := by
      simp only [select_context_and_results] at h
      split at h
      · exact h
      · rename_i hne
        exact absurd h hne
    have hcase :=
      buildFromAux_all_short_of_ctx_nil top_k _ 0 [] hempty it hit
    rcases hcase with ⟨-, hmem⟩ | hshort
    · simp at hmem
    · exact hshort

/-- C2 counterexample: the returned context list is empty although the
unfiltered list contains an item passing the cleaning and minimum-length
checks — the 21st item is never examined because the candidate pool is
capped at `max(6·top_k, 20) = 20` items. -/
theorem C2_falsified :
    (select_context_and_results c2Items [] 1).2 = []
      ∧ ∃ it ∈ c2Items,
          200 ≤ (clean_retrieved_content it.raw_content).length := by
  refine ⟨by decide, ⟨0, List.replicate 201 'a', [], [], []⟩, by decide, by decide⟩

/-! ## Dynamic-bucket precedence (C5) -/

/-- C5: `classify_dynamic_bucket` is a pure total function returning at
most one bucket, chosen by first match over the fixed precedence order:
road-closure terms (or a time-urgency term co-occurring with "road", or a
construction misspelling), then snow/winter terms, then
transit-lost-and-found (which requires both a lost-item phrase and a
transit term), then general transit terms, then weather, else none; and
every input containing both a road-closure term and a snow term resolves
to `road_closures`. -/
theorem C5_dynamic_bucket_precedence :
    (∀ q : Str, classify_dynamic_bucket q =
        (if roadRule (lowerStr q) then some ("road_closures".data)
         else if snowRule (lowerStr q) then some ("snow_removal".data)
         else if lostFoundRule (lowerStr q) then some ("transit_lost_found".data)
         else if transitRule (lowerStr q) then some ("transit".data)
         else if weatherRule (lowerStr q) then some ("weather".data)
         else none))
      ∧ (∀ q : Str, roadTerms.any (fun t => containsSub t (lowerStr q)) = true
          → snowTerms.any (fun t => containsSub t (lowerStr q)) = true
          → classify_dynamic_bucket q = some ("road_closures".data)) := by
  constructor
  · intro q
    rfl
  · intro q hroad _
    have hr : roadRule (lowerStr q) = true := by
      unfold roadRule
      rw [hroad]
      simp
    simp only [classify_dynamic_bucket]
    rw [hr]
    simp

theorem C5_dynamic_bucket_precedence_witness :
    classify_dynamic_bucket ("Road closure after all this snow?".data)
      = some ("road_closures".data) :=
  C5_dynamic_bucket_precedence.2 ("Road closure after all this snow?".data)
    (by decide) (by decide)

theorem C2_category_fallback_witness :
    select_context_and_results
        [(⟨3, List.replicate 250 'b', ("noise".data), [], ("u9".data)⟩ : RagItem)]
        ("parking".data) 2
      = buildFrom 2 (sortByScore
          [(⟨3, List.replicate 250 'b', ("noise".data), [], ("u9".data)⟩ : RagItem)]) :=
  (C2_category_fallback
      [(⟨3, List.replicate 250 'b', ("noise".data), [], ("u9".data)⟩ : RagItem)]
      ("parking".data) 2).1 (by decide)

/-! ## The fallback classifier and its address pattern (C4) -/

theorem space_not_digit (c : Char) (h : isSpaceCh c = true) :
    isDigitCh c = false := by
  simp only [isSpaceCh, Bool.or_eq_true, decide_eq_true_eq] at h
  rcases h with ((((rfl | rfl) | rfl) | rfl) | rfl) | rfl <;> decide

theorem space_not_word (c : Char) (h : isSpaceCh c = true) :
    isWordCh c = false := by
  simp only [isSpaceCh, Bool.or_eq_true, decide_eq_true_eq] at h
  rcases h with ((((rfl | rfl) | rfl) | rfl) | rfl) | rfl <;> decide

theorem word_not_space (c : Char) (h : isWordCh c = true) :
    isSpaceCh c = false := by
  by_cases hs : isSpaceCh c = true
  · rw [space_not_word c hs] at h
    cases h
  · simpa using hs

/-- Model of `span` on a list whose front satisfies `p` and whose remainder starts
with a character refuting `p` splits exactly at the boundary. -/
theorem span_append_of (p : Char → Bool) (xs ys : Str)
    (hall : ∀ c ∈ xs, p c = true)
    (hhd : ∀ d, ys.head? = some d → p d = false) :
    (xs ++ ys).span p = (xs, ys) := by
  induction xs with
  | nil =>
    cases ys with
    | nil => rfl
    | cons d ds =>
      have hd : p d = false := hhd d rfl
      simp [List.span_eq_take_drop, List.takeWhile_cons, List.dropWhile_cons, hd]
  | cons x xs ih =>
    have hx : p x = true := hall x (List.mem_cons_self x xs)
    have ih' := ih (fun c hc => hall c (List.mem_cons_of_mem x hc))
    simp only [List.span_eq_take_drop, Prod.mk.injEq] at ih'
    simp only [List.span_eq_take_drop, List.cons_append, List.takeWhile_cons,
      List.dropWhile_cons, hx, if_true, Prod.mk.injEq]
    exact ⟨by rw [ih'.1], by rw [ih'.2]⟩

/-- The head of a non-empty all-`p` block followed by anything refutes `q`
whenever `p` refutes `q` characterwise. -/
theorem head_refutes {p q : Char → Bool}
    (hpq : ∀ c, p c = true → q c = false) {xs : Str} (zs : Str)
    (hne : xs ≠ []) (hall : ∀ c ∈ xs, p c = true) :
    ∀ d, (xs ++ zs).head? = some d → q d = false := by
  intro d hd
  cases xs with
  | nil => exact absurd rfl hne
  | cons x xt =>
    simp only [List.cons_append, List.head?_cons, Option.some.injEq] at hd
    subst hd
    exact hpq _ (hall _ (List.mem_cons_self _ _))

/-- Every road-type suffix starts with a non-whitespace character. -/
theorem roadSuffix_head (suf : Str) (hsuf : suf ∈ roadSuffixes) (rest : Str) :
    ∀ d, (suf ++ rest).head? = some d → isSpaceCh d = false := by
  simp only [roadSuffixes, List.map_cons, List.mem_cons, List.map_nil,
    List.not_mem_nil, or_false] at hsuf
  rcases hsuf with rfl | rfl | rfl | rfl | rfl | rfl | rfl | rfl | rfl | rfl
    | rfl | rfl | rfl | rfl | rfl <;>
    (intro d hd; simp only [List.cons_append, List.head?_cons,
      Option.some.injEq] at hd; subst hd; decide)

/-- The address scanner recognizes exactly the texts of street-address
shape. -/
theorem searchAddr_iff (q : Str) : searchAddr q = true ↔ HasAddressShape q := by
  constructor
  · intro h
    rcases List.any_eq_true.mp h with ⟨t, ht, hmatch⟩
    rcases (List.mem_tails _ _).mp ht with ⟨pre, hpre⟩
    unfold addrMatchAt at hmatch
    simp only [List.span_eq_take_drop] at hmatch
    set ds := t.takeWhile isDigitCh with hds
    set r1 := t.dropWhile isDigitCh with hr1
    by_cases h1 : ds = []
    · simp [h1] at hmatch
    · rw [if_neg h1] at hmatch
      set w1 := r1.takeWhile isSpaceCh with hw1
      set r2 := r1.dropWhile isSpaceCh with hr2
      by_cases h2 : w1 = []
      · simp [h2] at hmatch
      · rw [if_neg h2] at hmatch
        set wd := r2.takeWhile isWordCh with hwd
        set r3 := r2.dropWhile isWordCh with hr3
        by_cases h3 : wd = []
        · simp [h3] at hmatch
        · rw [if_neg h3] at hmatch
          set w2 := r3.takeWhile isSpaceCh with hw2
          set r4 := r3.dropWhile isSpaceCh with hr4
          by_cases h4 : w2 = []
          · simp [h4] at hmatch
          · rw [if_neg h4] at hmatch
            rcases List.any_eq_true.mp hmatch with ⟨suf, hsuf, hp⟩
            rcases List.isPrefixOf_iff_prefix.mp hp with ⟨rest, hrest⟩
            refine ⟨pre, ds, w1, wd, w2, suf, rest, ?_, h1,
              fun c hc => List.mem_takeWhile_imp (hds ▸ hc), h2,
              fun c hc => List.mem_takeWhile_imp (hw1 ▸ hc), h3,
              fun c hc => List.mem_takeWhile_imp (hwd ▸ hc), h4,
              fun c hc => List.mem_takeWhile_imp (hw2 ▸ hc), hsuf⟩
            have et : ds ++ r1 = t := by
              rw [hds, hr1]; exact List.takeWhile_append_dropWhile _ _
            have e1 : w1 ++ r2 = r1 := by
              rw [hw1, hr2]; exact List.takeWhile_append_dropWhile _ _
            have e2 : wd ++ r3 = r2 := by
              rw [hwd, hr3]; exact List.takeWhile_append_dropWhile _ _
            have e3 : w2 ++ r4 = r3 := by
              rw [hw2, hr4]; exact List.takeWhile_append_dropWhile _ _
            rw [← hpre, ← et, ← e1, ← e2, ← e3, hrest]
  · rintro ⟨pre, ds, w1, wd, w2, suf, rest, hq, h1, hd1, h2, hd2, h3, hd3,
      h4, hd4, hsuf⟩
    unfold searchAddr
    rw [List.any_eq_true]
    refine ⟨ds ++ (w1 ++ (wd ++ (w2 ++ (suf ++ rest)))), ?_, ?_⟩
    · rw [List.mem_tails, hq]
      exact ⟨pre, rfl⟩
    · have s1 : (ds ++ (w1 ++ (wd ++ (w2 ++ (suf ++ rest))))).span isDigitCh
          = (ds, w1 ++ (wd ++ (w2 ++ (suf ++ rest)))) :=
        span_append_of _ _ _ hd1 (head_refutes space_not_digit _ h2 hd2)
      have s2 : (w1 ++ (wd ++ (w2 ++ (suf ++ rest)))).span isSpaceCh
          = (w1, wd ++ (w2 ++ (suf ++ rest))) :=
        span_append_of _ _ _ hd2 (head_refutes word_not_space _ h3 hd3)
      have s3 : (wd ++ (w2 ++ (suf ++ rest))).span isWordCh
          = (wd, w2 ++ (suf ++ rest)) :=
        span_append_of _ _ _ hd3 (head_refutes space_not_word _ h4 hd4)
      have s4 : (w2 ++ (suf ++ rest)).span isSpaceCh = (w2, suf ++ rest) :=
        span_append_of _ _ _ hd4 (roadSuffix_head suf hsuf rest)
      simp only [addrMatchAt, s1, s2, s3, s4]
      rw [if_neg h1, if_neg h2, if_neg h3, if_neg h4]
      exact List.any_eq_true.mpr
        ⟨suf, hsuf, List.isPrefixOf_iff_prefix.mpr (List.prefix_append suf rest)⟩

/-- C4: `classify_question_intent_fallback` is a pure total function of the
question text (no external call is modelled because the source makes
none).  It returns `(live_status_lookup, waste_collection)` exactly when
the lowered text contains both a street-address-shaped pattern (digits,
word(s), a recognized road-type suffix — the explicit decomposition
`HasAddressShape`) and a collection keyword; otherwise it returns
`policy_explanatory` paired with the first matching category in the fixed
priority order parking, property_tax, waste_collection, hazardous_waste,
fire_permits, noise, defaulting to `waste_collection`; and the two cited
examples evaluate as stated. -/
theorem C4_fallback_classifier :
    (∀ q : Str, searchAddr (lowerStr q) = true ↔ HasAddressShape (lowerStr q))
      ∧ (∀ q : Str,
          classify_question_intent_fallback q
              = (("live_status_lookup".data), ("waste_collection".data))
            ↔ (searchAddr (lowerStr q) && hasCollectionKeyword (lowerStr q)) = true)
      ∧ (∀ q : Str,
          (searchAddr (lowerStr q) && hasCollectionKeyword (lowerStr q)) = false
          → classify_question_intent_fallback q
              = (("policy_explanatory".data), fallbackPriorityCategory (lowerStr q)))
      ∧ classify_question_intent_fallback ("What goes in the blue box?".data)
          = (("policy_explanatory".data), ("waste_collection".data))
      ∧ classify_question_intent_fallback ("576 Division Street collection day".data)
          = (("live_status_lookup".data), ("waste_collection".data)) := by
  refine ⟨fun q => searchAddr_iff (lowerStr q), ?_, ?_, by decide, by decide⟩
  · intro q
    constructor
    · intro he
      by_cases hc : (searchAddr (lowerStr q) && hasCollectionKeyword (lowerStr q)) = true
      · exact hc
      · exfalso
        simp only [classify_question_intent_fallback] at he
        rw [if_neg hc] at he
        repeat' split at he
        all_goals exact absurd (congrArg Prod.fst he) (by decide)
    · intro hc
      simp only [classify_question_intent_fallback]
      rw [if_pos hc]
  · intro q hc
    simp only [classify_question_intent_fallback, fallbackPriorityCategory]
    rw [if_neg (by simp [hc])]
    repeat' (first | rfl | split)

theorem C4_fallback_classifier_witness :
    classify_question_intent_fallback ("pay taxes today".data)
      = (("policy_explanatory".data),
          fallbackPriorityCategory (lowerStr ("pay taxes today".data))) :=
  C4_fallback_classifier.2.2.1 ("pay taxes today".data) (by decide)

/-! ## Source-resolver invariants (C6) -/

theorem dedupAllowedList_allowed (l : List Source) :
    ∀ (seen : List Str), ∀ s ∈ dedupAllowedList seen l,
      is_allowed_domain s.url = true := by
  induction l with
  | nil => intro seen s hs; simp [dedupAllowedList] at hs
  | cons a rest ih =>
    intro seen s hs
    rw [dedupAllowedList] at hs
    split at hs
    · exact ih seen s hs
    · split at hs
      · exact ih seen s hs
      · rcases List.mem_cons.mp hs with rfl | hs'
        · rename_i hok
          simpa using hok
        · exact ih (a.url :: seen) s hs'

theorem dedupAllowedList_sublist (l : List Source) :
    ∀ (seen : List Str), (dedupAllowedList seen l).Sublist l := by
  induction l with
  | nil => intro seen; simp [dedupAllowedList]
  | cons a rest ih =>
    intro seen
    rw [dedupAllowedList]
    split
    · exact (ih seen).cons _
    · split
      · exact (ih seen).cons _
      · exact (ih (a.url :: seen)).cons₂ _

theorem dedupAllowedList_fresh_nodup (l : List Source) :
    ∀ (seen : List Str),
      (∀ s ∈ dedupAllowedList seen l, s.url ∉ seen)
        ∧ ((dedupAllowedList seen l).map (fun s => s.url)).Nodup := by
  induction l with
  | nil => intro seen; simp [dedupAllowedList]
  | cons a rest ih =>
    intro seen
    rw [dedupAllowedList]
    split
    · exact ih seen
    · split
      · exact ih seen
      · rename_i hskip _
        have hfresh : a.url ∉ seen := fun hmem => hskip (Or.inr hmem)
        have iht := ih (a.url :: seen)
        constructor
        · intro s hs
          rcases List.mem_cons.mp hs with rfl | hs'
          · exact hfresh
          · exact fun hmem => iht.1 s hs' (List.mem_cons_of_mem _ hmem)
        · simp only [List.map_cons, List.nodup_cons]
          refine ⟨?_, iht.2⟩
          intro hmem
          rcases List.mem_map.mp hmem with ⟨s, hs, hurl⟩
          exact iht.1 s hs (hurl ▸ List.mem_cons_self _ _)

/-- C6: for every bucket, query, `maxResults` and every sitemap-cache
state, `select_dynamic_sources` returns only URLs whose host is in the
fixed domain allow-list, never repeats a URL, caps the output at
`maxResults`, and emits (deduplicated, first-seen-order) curated seed
entries before sitemap-derived entries: the output's url sequence is a
sublist of the curated urls followed by the sitemap-derived urls. -/
theorem C6_dynamic_sources_invariants (bucket : Option Str) (query : Str)
    (maxResults : Nat) (items : List SitemapItem) :
    (∀ s ∈ select_dynamic_sources bucket query maxResults items,
        is_allowed_domain s.url = true)
      ∧ ((select_dynamic_sources bucket query maxResults items).map
          (fun s => s.url)).Nodup
      ∧ (select_dynamic_sources bucket query maxResults items).length ≤ maxResults
      ∧ ((select_dynamic_sources bucket query maxResults items).map
            (fun s => s.url)).Sublist
          ((curatedFor (resolvedBucket bucket query)).map (fun s => s.url)
            ++ sitemapExtras (resolvedBucket bucket query) items) := by
  simp only [select_dynamic_sources]
  refine ⟨?_, ?_, ?_, ?_⟩
  · intro s hs
    exact dedupAllowedList_allowed _ [] s
      ((List.take_sublist _ _).subset hs)
  · rw [List.map_take]
    exact ((dedupAllowedList_fresh_nodup _ []).2).sublist
      (List.take_sublist _ _)
  · exact List.length_take_le _ _
  · have h1 : ((dedupAllowedList []
        (dynCandidates (resolvedBucket bucket query) items)).take
          maxResults).Sublist
        (dynCandidates (resolvedBucket bucket query) items) :=
      (List.take_sublist _ _).trans (dedupAllowedList_sublist _ [])
    have h2 := h1.map (fun s => s.url)
    have h3 : (dynCandidates (resolvedBucket bucket query) items).map
        (fun s => s.url)
        = (curatedFor (resolvedBucket bucket query)).map (fun s => s.url)
          ++ sitemapExtras (resolvedBucket bucket query) items := by
      simp only [dynCandidates, List.map_append, List.map_map]
      congr 1
      have hid : ((fun s : Source => s.url) ∘ fun u : Str =>
          ({ title := ("Official update".data), url := u } : Source)) = id := rfl
      rw [hid, List.map_id]
    rw [h3] at h2
    exact h2

theorem C6_dynamic_sources_invariants_witness :
    is_allowed_domain
      (("https://www.cityofkingston.ca/roads-parking-and-transportation/road-maintenance/road-closures/".data) : Str)
      = true := by
  have h := (C6_dynamic_sources_invariants none ("road closure".data) 2 []).1
    (⟨("Traffic and Road Closures".data),
      ("https://www.cityofkingston.ca/roads-parking-and-transportation/road-maintenance/road-closures/".data)⟩ : Source)
    (by decide)
  exact h

/-! ## Dynamic context numbering (C7) -/

/-- The fetch loop equals a filter of the enumerated candidates truncated at
the acceptance cap: `max (m - cnt) 1` acceptances (the cap is 1 even for
`m = 0` because the stop test only runs after an acceptance). -/
theorem dynLoop_eq (A : Nat × Source → Option (Nat × Source × Str)) (m : Nat) :
    ∀ (l : List (Nat × Source)) (cnt : Nat),
      dynLoop A m cnt l = (l.filterMap A).take (max (m - cnt) 1) := by
  intro l
  induction l with
  | nil => intro cnt; simp [dynLoop]
  | cons p rest ih =>
    intro cnt
    rw [dynLoop]
    rcases hA : A p with _ | r
    · simp only [List.filterMap_cons, hA]
      exact ih cnt
    · simp only [List.filterMap_cons, hA]
      split
    
      · rename_i hge
        have hmax : max (m - cnt) 1 = 1 := by omega
        rw [hmax]
        simp
      · rename_i hlt
        rw [ih (cnt + 1)]
        have h1 : max (m - cnt) 1 = (m - cnt - 1) + 1 := by omega
        have h2 : max (m - (cnt + 1)) 1 = m - cnt - 1 := by omega
        rw [h1, h2, List.take_succ_cons]

/-- A successful `dynAccept` keeps the enumerate index and emits a block
whose header carries exactly that index. -/
theorem dynAccept_shape (fetch : Str → Option Str) (soupText : Str → Str)
    (titleOf : Str → Option Str) (p : Nat × Source) (r : Nat × Source × Str)
    (h : dynAccept fetch soupText titleOf p = some r) :
    r.1 = p.1 ∧ ∃ t, r.2.2 = ("[".data) ++ Nat.toDigits 10 p.1 ++ ("] ".data) ++ t := by
  unfold dynAccept at h
  dsimp only at h
  split at h
  · cases h
  · split at h
    · cases h
    · rcases hf : fetch p.2.url with _ | html
      · rw [hf] at h
        cases h
      · rw [hf] at h
        dsimp only at h
        split at h
        · cases h
        · rw [Option.some_inj] at h
          subst h
          refine ⟨rfl, ?_⟩
          simp only [List.append_assoc]
          exact ⟨_, rfl⟩

/-- Model of `filterMap` by an index-preserving function keeps the index sequence a
sublist of the original. -/
theorem filterMap_fst_sublist (A : Nat × Source → Option (Nat × Source × Str))
    (hA : ∀ p r, A p = some r → r.1 = p.1) :
    ∀ l : List (Nat × Source),
      ((l.filterMap A).map (fun r => r.1)).Sublist (l.map Prod.fst) := by
  intro l
  induction l with
  | nil => simp
  | cons p rest ih =>
    rcases hAp : A p with _ | r
    · simp only [List.filterMap_cons, hAp, List.map_cons]
      exact ih.cons _
    · simp only [List.filterMap_cons, hAp, List.map_cons]
      rw [hA p r hAp]
      exact ih.cons₂ _

/-- C7 (amended): for every query, `maxResults`, sitemap-cache state and
every outcome of the per-URL fetches, `build_dynamic_context` returns
exactly the acceptance-filtered, cap-truncated enumerated candidates — so
a fetch failure or too-short page for one URL removes only that URL and
never fails the batch.  Each accepted source carries as citation index its
1-based position in the *candidate* list: the indices are strictly
increasing across blocks but are **not** the sequential numbers
1..k of the accepted sources (see `C7_falsified`), and the k-th block's
header is `"[i] ..."` for that candidate position `i`. -/
theorem C7_dynamic_numbering (query : Str) (maxResults : Nat)
    (items : List SitemapItem) (fetch : Str → Option Str)
    (soupText : Str → Str) (titleOf : Str → Option Str) :
    (build_dynamic_context query maxResults items fetch soupText titleOf
        = (if select_dynamic_sources (classify_dynamic_bucket query) query
              maxResults items = [] then ([], [])
           else
             ((dynAcceptedRecs query maxResults items fetch soupText titleOf).map
                (fun r => r.2.1),
              pyStrip (List.intercalate ("\n\n".data)
                ((dynAcceptedRecs query maxResults items fetch soupText
                    titleOf).map (fun r => r.2.2))))))
      ∧ List.Pairwise (fun a b => a < b)
          ((dynAcceptedRecs query maxResults items fetch soupText titleOf).map
            (fun r => r.1))
      ∧ (∀ r ∈ dynAcceptedRecs query maxResults items fetch soupText titleOf,
          r.2.2.take (("[".data) ++ Nat.toDigits 10 r.1 ++ ("] ".data)).length
            = ("[".data) ++ Nat.toDigits 10 r.1 ++ ("] ".data)) := by
  refine ⟨?_, ?_, ?_⟩
  · simp only [build_dynamic_context, dynAcceptedRecs, dynLoop_eq, Nat.sub_zero]
  · have h1 : ((dynAcceptedRecs query maxResults items fetch soupText
        titleOf).map (fun r => r.1)).Sublist
        (((List.enumFrom 1 (select_dynamic_sources
            (classify_dynamic_bucket query) query maxResults items)).filterMap
          (dynAccept fetch soupText titleOf)).map (fun r => r.1)) := by
      unfold dynAcceptedRecs
      exact (List.take_sublist _ _).map _
    have h2 := filterMap_fst_sublist (dynAccept fetch soupText titleOf)
      (fun p r hr => (dynAccept_shape fetch soupText titleOf p r hr).1)
      (List.enumFrom 1 (select_dynamic_sources (classify_dynamic_bucket query)
        query maxResults items))
    refine List.Pairwise.sublist (h1.trans h2) ?_
    rw [List.enumFrom_map_fst]
    exact List.pairwise_lt_range' _ _
  · intro r hr
    have hmem : r ∈ (List.enumFrom 1 (select_dynamic_sources
        (classify_dynamic_bucket query) query maxResults items)).filterMap
        (dynAccept fetch soupText titleOf) :=
      (List.take_sublist _ _).subset hr
    rcases List.mem_filterMap.mp hmem with ⟨p, _, hAp⟩
    rcases dynAccept_shape fetch soupText titleOf p r hAp with ⟨hidx, t, ht⟩
    rw [← hidx] at ht
    rw [ht, List.take_left]

/-- C7 counterexample: for the query "road closure" there are two candidate
sources; when the fetch of the first fails and the second succeeds (with a
300-character page), exactly one source is accepted, yet its context block
is numbered `"[2]"`, not `"[1]"` — the first accepted source does not carry
citation index 1. -/
theorem C7_falsified :
    ((build_dynamic_context ("road closure".data) 6 [] c7Fetch (fun h => h)
        (fun _ => none)).1.length = 1)
      ∧ ((build_dynamic_context ("road closure".data) 6 [] c7Fetch (fun h => h)
          (fun _ => none)).2.take 4 = ("[2] ".data))
      ∧ ((build_dynamic_context ("road closure".data) 6 [] c7Fetch (fun h => h)
          (fun _ => none)).2.take 4 ≠ ("[1] ".data)) :=
  ⟨by decide, by decide, by decide⟩

theorem C7_dynamic_numbering_witness :
    (((dynAcceptedRecs ("road closure".data) 6 [] w7Fetch (fun h => h)
        (fun _ => none)).headD (0, ⟨[], []⟩, [])).2.2).take
        ((("[".data) ++ Nat.toDigits 10
          ((dynAcceptedRecs ("road closure".data) 6 [] w7Fetch (fun h => h)
            (fun _ => none)).headD (0, ⟨[], []⟩, [])).1 ++ ("] ".data)).length)
      = ("[".data) ++ Nat.toDigits 10
          ((dynAcceptedRecs ("road closure".data) 6 [] w7Fetch (fun h => h)
            (fun _ => none)).headD (0, ⟨[], []⟩, [])).1 ++ ("] ".data) :=
  (C7_dynamic_numbering ("road closure".data) 6 [] w7Fetch (fun h => h)
    (fun _ => none)).2.2 _ (by decide)

/-! ## Sitemap cache behavior (C8) -/

/-- C8 (amended): `_fetch_sitemap_items` never raises to its caller (it is
total over every fetch/parse outcome).  When the cache holds a non-empty
item list fresher than the TTL it returns the cached items unchanged
without consulting the fetch outcome at all; on fetch/parse failure it
returns the empty list and leaves the cache unchanged — the last good
cache is retained in the cache state for later calls but is *not* returned
for this call (see `C8_falsified`), and a fresh-but-empty cache does not
short-circuit the fetch. -/
theorem C8_sitemap_cache (now ttl : Int) (cache : SitemapCache) :
    ((cache.items ≠ [] ∧ now - cache.ts < ttl) →
        ∀ fetchParse : Option (List RawSitemapEntry),
          fetch_sitemap_items now ttl fetchParse cache = (cache.items, cache))
      ∧ (¬ (cache.items ≠ [] ∧ now - cache.ts < ttl) →
          fetch_sitemap_items now ttl none cache = ([], cache)) := by
  constructor
  · intro h fp
    unfold fetch_sitemap_items
    rw [if_pos h]
  · intro h
    unfold fetch_sitemap_items
    rw [if_neg h]

theorem C8_sitemap_cache_witness :
    fetch_sitemap_items 100 3600 none
        ⟨0, [⟨("https://www.cityofkingston.ca/a".data), none⟩]⟩
      = ([⟨("https://www.cityofkingston.ca/a".data), none⟩],
         ⟨0, [⟨("https://www.cityofkingston.ca/a".data), none⟩]⟩) :=
  (C8_sitemap_cache 100 3600
      ⟨0, [⟨("https://www.cityofkingston.ca/a".data), none⟩]⟩).1
    ⟨by decide, by decide⟩ none

/-- C8 counterexample: with a stale but non-empty last good cache and a
failing fetch, `_fetch_sitemap_items` returns the empty list rather than
the cached item list. -/
theorem C8_falsified :
    (fetch_sitemap_items 4000 3600 none
        ⟨0, [⟨("https://www.cityofkingston.ca/a".data), none⟩]⟩).1 = []
      ∧ ((⟨0, [⟨("https://www.cityofkingston.ca/a".data), none⟩]⟩ :
          SitemapCache).items ≠ []) :=
  ⟨by decide, by decide⟩

/-! ## The non-streaming handler (C10) -/

theorem buildFrom_results_from (k : Nat) (cands : List RagItem) :
    ∀ r ∈ (buildFrom k cands).1, ∃ it ∈ cands, r = mkRagResult it := by
  intro r hr
  have hmem := (buildFromAux_sublist k (cands.take (max (k * 6) 20)) 0 []).subset hr
  rcases List.mem_map.mp hmem with ⟨it, hit, rfl⟩
  exact ⟨it, (List.take_sublist _ _).subset hit, rfl⟩

theorem mem_categoryFiltered {it : RagItem} {items : List RagItem} {en : Str}
    (h : it ∈ categoryFiltered items en) : it ∈ items := by
  unfold categoryFiltered at h
  split at h
  · exact List.mem_of_mem_filter h
  · exact h

/-- The category of every formatted result comes from one of the input
matches. -/
theorem select_results_categories (ms : List RagItem) (e : Str) (k : Nat) :
    ∀ r ∈ (select_context_and_results ms e k).1,
      ∃ it ∈ ms, r.category = it.category := by
  intro r hr
  simp only [select_context_and_results] at hr
  split at hr
  · rcases buildFrom_results_from k _ r hr with ⟨it, hit, rfl⟩
    exact ⟨it, (mem_stableSort _ it ms).mp hit, rfl⟩
  · rcases buildFrom_results_from k _ r hr with ⟨it, hit, rfl⟩
    exact ⟨it, (mem_stableSort _ it ms).mp (mem_categoryFiltered hit), rfl⟩

/-- The `/query` handler's result list is either empty (live-lookup,
greeting and no-context paths) or exactly the formatted list of
`_select_context_and_results`. -/
theorem query_pinecone_results_shape (dyn : DynOracles) (lang : LangOracles)
    (aiResult : Option Str) (ms : List RagItem) (greetingPick : Nat)
    (llm : LlmOracles) (req : QueryRequest') :
    (query_pinecone dyn lang aiResult ms greetingPick llm req).results = []
      ∨ (query_pinecone dyn lang aiResult ms greetingPick llm req).results
        = (select_context_and_results ms
            (classify_question_intent aiResult req.query).2 req.top_k).1 := by
  unfold query_pinecone
  dsimp only
  split
  · split <;> exact Or.inl rfl
  · split
    · exact Or.inl rfl
    · split
      · exact Or.inr rfl
      · exact Or.inr rfl

/-- C10: the non-streaming `/query` handler never takes the dynamic
official-site route.  Its response is identical for every behavior of the
dynamic-search capabilities (sitemap cache, page fetching, HTML
extraction) and of the language-adaptation capabilities (detection,
translation) — it invokes none of them; its result list is either empty or
exactly the list assembled by `_select_context_and_results`; and it never
contains a `dynamic_search` entry unless the Pinecone metadata itself
carried that category string. -/
theorem C10_query_handler_static (dyn dyn' : DynOracles)
    (lang lang' : LangOracles) (aiResult : Option Str) (ms : List RagItem)
    (greetingPick : Nat) (llm : LlmOracles) (req : QueryRequest') :
    (query_pinecone dyn lang aiResult ms greetingPick llm req
        = query_pinecone dyn' lang' aiResult ms greetingPick llm req)
      ∧ ((query_pinecone dyn lang aiResult ms greetingPick llm req).results = []
          ∨ (query_pinecone dyn lang aiResult ms greetingPick llm req).results
            = (select_context_and_results ms
                (classify_question_intent aiResult req.query).2 req.top_k).1)
      ∧ ((∀ m ∈ ms, m.category ≠ ("dynamic_search".data))
          → ∀ r ∈ (query_pinecone dyn lang aiResult ms greetingPick llm req).results,
              r.category ≠ ("dynamic_search".data)) := by
  refine ⟨rfl, query_pinecone_results_shape dyn lang aiResult ms greetingPick llm req, ?_⟩
  intro hms r hr
  rcases query_pinecone_results_shape dyn lang aiResult ms greetingPick llm req
    with he | he
  · rw [he] at hr
    cases hr
  · rw [he] at hr
    rcases select_results_categories ms _ req.top_k r hr with ⟨it, hit, hcat⟩
    rw [hcat]
    exact hms it hit

theorem C10_query_handler_static_witness :
    (mkRagResult w10Item).category ≠ ("dynamic_search".data) :=
  (C10_query_handler_static w10Dyn w10Dyn w10Lang w10Lang
      (some ("policy_explanatory|parking".data)) [w10Item] 0 w10Llm w10Req).2.2
    (by decide) (mkRagResult w10Item) (by decide)
